import Mathlib

/-!
Verification of the go-fuzz-utils `TypeProvider` (file `type_provider.go`).

The Go code is shallowly embedded as follows:

* the byte buffer is a `List Nat` whose entries are bytes (0..255);
* the cursor `position` is an `Int`, exactly as Go's `int`, so that the
  bounds checks of `validateBounds` are embedded as written;
* Go's `*rand.Rand` (field `randomProvider`) is an external dependency of
  the repository (the standard library).  It is modelled at the level of
  the two calls the repository makes, `Intn` and `Float32`: a pair of
  abstract deterministic functions giving, for a seed and a call counter,
  the value returned by the respective call.  Each call to `Intn` or
  `Float32` consumes exactly one generator step (Go's `rand.Intn` always
  draws from the underlying source, even for `Intn(1)` which masks the
  draw to the constant 0).  The standard-library contract (`Intn n` lies
  in `[0, n)` for `n > 0`, `Float32` lies in `[0, 1)`) is carried as a
  hypothesis where a theorem needs it;
* errors become the enumeration `Err`; every operation returns its
  result `Except Err` value paired with the post-state, mirroring Go's
  `(value, error)` returns on a mutated receiver.
-/

set_option autoImplicit false

namespace GoFuzzUtils

/-- Error kinds produced by the provider, one per distinct failure
condition in `type_provider.go` (negative read request, cursor outside
the buffer, exhausted buffer) plus the configuration-setter rejection. -/
inductive Err where
  | invalidRequest
  | positionOutOfBounds
  | endOfStream
  | invalidConfiguration
  deriving DecidableEq

/-- Model of `math/rand.(*Rand).Intn`: given the seed, the number of
generator calls already made and the argument `n`, the value returned.
Go panics for `n <= 0`; the model leaves the value unconstrained there. -/
abbrev RandIntn : Type := Int → Nat → Int → Int

/-- Model of `math/rand.(*Rand).Float32` (as a rational): given the seed
and the number of generator calls already made, the value returned.
The standard library guarantees the value lies in `[0, 1)`. -/
abbrev RandFloat : Type := Int → Nat → ℚ

/-- The `TypeProvider` struct of `type_provider.go`.  The Go field
`randomProvider *rand.Rand` is represented by the pair `seed` (the value
passed to `rand.NewSource`) and `randCount` (how many generator calls
have been made); biases are rationals standing for the `float32` fields.
The default biases 0.05 are written `1/20` (the exact value of the Go
literal is immaterial to every theorem below). -/
structure TypeProvider where
  data : List Nat
  position : Int
  seed : Int
  randCount : Nat
  sliceMinSize : Int
  sliceMaxSize : Int
  sliceNilBias : ℚ
  mapMinSize : Int
  mapMaxSize : Int
  mapNilBias : ℚ
  ptrNilBias : ℚ
  stringMinLength : Int
  stringMaxLength : Int
  depthLimit : Int
  fillUnexportedFields : Bool
  skipFieldBias : ℚ
  deriving DecidableEq

/-- One generator call was consumed: the call counter advances. -/
def bump (tp : TypeProvider) : TypeProvider :=
  { tp with randCount := tp.randCount + 1 }

/-- `getRandomSize(min, max)`: `t.randomProvider.Intn((max - min) + 1) + min`.
One generator call is consumed unconditionally: Go's `Intn` always draws
from the source, also for argument 1. -/
def getRandomSize (intnF : RandIntn) (tp : TypeProvider) (mn mx : Int) :
    Int × TypeProvider :=
  (intnF tp.seed tp.randCount ((mx - mn) + 1) + mn, bump tp)

/-- `getRandomBool(probability)`: `t.randomProvider.Float32() < probability`. -/
def getRandomBool (floatF : RandFloat) (tp : TypeProvider) (p : ℚ) :
    Bool × TypeProvider :=
  (decide (floatF tp.seed tp.randCount < p), bump tp)

/-- `validateBounds(expectedCount)`: the three checks of the Go function,
in order: negative request, cursor outside the buffer, not enough bytes
left. -/
def validateBounds (tp : TypeProvider) (expectedCount : Int) : Option Err :=
  if expectedCount < 0 then some .invalidRequest
  else if tp.position < 0 ∨ (tp.data.length : Int) < tp.position then
    some .positionOutOfBounds
  else if (tp.data.length : Int) - tp.position < expectedCount then
    some .endOfStream
  else none

/-- `GetNBytes(length)`: validate, then hand out
`t.data[t.position : t.position+length]` and advance the cursor. -/
def GetNBytes (tp : TypeProvider) (length : Int) :
    (Except Err (List Nat)) × TypeProvider :=
  match validateBounds tp length with
  | some e => (.error e, tp)
  | none =>
    (.ok ((tp.data.drop tp.position.toNat).take length.toNat),
     { tp with position := tp.position + length })

/-- `GetByte()`: validate one byte, return `t.data[t.position]`, advance
by one. -/
def GetByte (tp : TypeProvider) : (Except Err Nat) × TypeProvider :=
  match validateBounds tp 1 with
  | some e => (.error e, tp)
  | none =>
    (.ok (tp.data.getD tp.position.toNat 0),
     { tp with position := tp.position + 1 })

/-- `GetBool()`: one byte, true iff it is even. -/
def GetBool (tp : TypeProvider) : (Except Err Bool) × TypeProvider :=
  match GetByte tp with
  | (.ok b, tp1) => (.ok (decide (b % 2 = 0)), tp1)
  | (.error e, tp1) => (.error e, tp1)

/-- Big-endian value of a byte list, as `encoding/binary.BigEndian`. -/
def beUint (bs : List Nat) : Nat :=
  bs.foldl (fun acc b => acc * 256 + b) 0

/-- Two's-complement reinterpretation of a `w`-bit unsigned value, the
meaning of Go's `int8(b)`, `int16(x)`, ... conversions. -/
def toSigned (w : Nat) (u : Nat) : Int :=
  if u < 2 ^ (w - 1) then (u : Int) else (u : Int) - 2 ^ w

/-- `GetUint8()`: one byte. -/
def GetUint8 (tp : TypeProvider) : (Except Err Nat) × TypeProvider :=
  GetByte tp

/-- `GetInt8()`: one byte reinterpreted as `int8`. -/
def GetInt8 (tp : TypeProvider) : (Except Err Int) × TypeProvider :=
  match GetByte tp with
  | (.ok b, tp1) => (.ok (toSigned 8 b), tp1)
  | (.error e, tp1) => (.error e, tp1)

/-- `GetUint16()`: two bytes, big endian. -/
def GetUint16 (tp : TypeProvider) : (Except Err Nat) × TypeProvider :=
  match GetNBytes tp 2 with
  | (.ok bs, tp1) => (.ok (beUint bs), tp1)
  | (.error e, tp1) => (.error e, tp1)

/-- `GetInt16()`: the `uint16` reinterpreted as `int16`. -/
def GetInt16 (tp : TypeProvider) : (Except Err Int) × TypeProvider :=
  match GetUint16 tp with
  | (.ok u, tp1) => (.ok (toSigned 16 u), tp1)
  | (.error e, tp1) => (.error e, tp1)

/-- `GetUint32()`: four bytes, big endian. -/
def GetUint32 (tp : TypeProvider) : (Except Err Nat) × TypeProvider :=
  match GetNBytes tp 4 with
  | (.ok bs, tp1) => (.ok (beUint bs), tp1)
  | (.error e, tp1) => (.error e, tp1)

/-- `GetInt32()`: the `uint32` reinterpreted as `int32`. -/
def GetInt32 (tp : TypeProvider) : (Except Err Int) × TypeProvider :=
  match GetUint32 tp with
  | (.ok u, tp1) => (.ok (toSigned 32 u), tp1)
  | (.error e, tp1) => (.error e, tp1)

/-- `GetUint64()`: eight bytes, big endian. -/
def GetUint64 (tp : TypeProvider) : (Except Err Nat) × TypeProvider :=
  match GetNBytes tp 8 with
  | (.ok bs, tp1) => (.ok (beUint bs), tp1)
  | (.error e, tp1) => (.error e, tp1)

/-- `GetInt64()`: the `uint64` reinterpreted as `int64`. -/
def GetInt64 (tp : TypeProvider) : (Except Err Int) × TypeProvider :=
  match GetUint64 tp with
  | (.ok u, tp1) => (.ok (toSigned 64 u), tp1)
  | (.error e, tp1) => (.error e, tp1)

/-- `GetUint()`: reads a `uint64` and casts to the platform `uint`
(64-bit on the supported platforms, so the identity here). -/
def GetUint (tp : TypeProvider) : (Except Err Nat) × TypeProvider :=
  GetUint64 tp

/-- `GetInt()`: reads a `uint64` and casts to the platform `int`. -/
def GetInt (tp : TypeProvider) : (Except Err Int) × TypeProvider :=
  match GetUint64 tp with
  | (.ok u, tp1) => (.ok (toSigned 64 u), tp1)
  | (.error e, tp1) => (.error e, tp1)

/-- `GetFloat32()`: `math.Float32frombits` of the `uint32`; the value is
carried as its bit pattern. -/
def GetFloat32 (tp : TypeProvider) : (Except Err Nat) × TypeProvider :=
  GetUint32 tp

/-- `GetFloat64()`: `math.Float64frombits` of the `uint64`; the value is
carried as its bit pattern. -/
def GetFloat64 (tp : TypeProvider) : (Except Err Nat) × TypeProvider :=
  GetUint64 tp

/-- `GetFixedString(length)`: the raw bytes, reinterpreted as text with
no validation (a string is its byte list here). -/
def GetFixedString (tp : TypeProvider) (length : Int) :
    (Except Err (List Nat)) × TypeProvider :=
  GetNBytes tp length

/-- `GetBytes()`: a random size within the slice bounds, then that many
bytes. -/
def GetBytes (intnF : RandIntn) (tp : TypeProvider) :
    (Except Err (List Nat)) × TypeProvider :=
  let p := getRandomSize intnF tp tp.sliceMinSize tp.sliceMaxSize
  GetNBytes p.2 p.1

/-- `GetString()`: a random size within the string bounds, then that
many bytes reinterpreted as text. -/
def GetString (intnF : RandIntn) (tp : TypeProvider) :
    (Except Err (List Nat)) × TypeProvider :=
  let p := getRandomSize intnF tp tp.stringMinLength tp.stringMaxLength
  GetNBytes p.2 p.1

/-- `Reset()`: cursor back to zero, read the seed from the first
`int64`, rebuild the generator from it (call counter back to zero). -/
def Reset (tp : TypeProvider) : (Except Err Unit) × TypeProvider :=
  let tp0 := { tp with position := 0 }
  match GetInt64 tp0 with
  | (.error e, tp1) => (.error e, tp1)
  | (.ok s, tp1) => (.ok (), { tp1 with seed := s, randCount := 0 })

/-- The provider built by `NewTypeProvider` before its `Reset` call:
the supplied data and the default parameters of the Go constructor. -/
def initialProvider (data : List Nat) : TypeProvider :=
  { data := data
    position := 0
    seed := 0
    randCount := 0
    sliceMinSize := 0
    sliceMaxSize := 15
    sliceNilBias := 1/20
    mapMinSize := 0
    mapMaxSize := 15
    mapNilBias := 1/20
    ptrNilBias := 1/20
    stringMinLength := 0
    stringMaxLength := 15
    depthLimit := 0
    fillUnexportedFields := true
    skipFieldBias := 0 }

/-- `NewTypeProvider(data)`: default parameters, then `Reset`; the
`Reset` failure (fewer than eight bytes) propagates. -/
def NewTypeProvider (data : List Nat) : Except Err TypeProvider :=
  match Reset (initialProvider data) with
  | (.error e, _) => .error e
  | (.ok _, t1) => .ok t1

/-- `SetParamsSliceBounds(min, max)`. -/
def SetParamsSliceBounds (tp : TypeProvider) (mn mx : Int) :
    (Except Err Unit) × TypeProvider :=
  if mn < 0 ∨ mx < mn then (.error .invalidConfiguration, tp)
  else (.ok (), { tp with sliceMinSize := mn, sliceMaxSize := mx })

/-- `SetParamsMapBounds(min, max)`. -/
def SetParamsMapBounds (tp : TypeProvider) (mn mx : Int) :
    (Except Err Unit) × TypeProvider :=
  if mn < 0 ∨ mx < mn then (.error .invalidConfiguration, tp)
  else (.ok (), { tp with mapMinSize := mn, mapMaxSize := mx })

/-- `SetParamsStringBounds(min, max)`. -/
def SetParamsStringBounds (tp : TypeProvider) (mn mx : Int) :
    (Except Err Unit) × TypeProvider :=
  if mn < 0 ∨ mx < mn then (.error .invalidConfiguration, tp)
  else (.ok (), { tp with stringMinLength := mn, stringMaxLength := mx })

/-- `SetParamsBiases(mapNilBias, ptrNilBias, sliceNilBias, skipFieldBias)`. -/
def SetParamsBiases (tp : TypeProvider) (m p s f : ℚ) :
    (Except Err Unit) × TypeProvider :=
  if m < 0 ∨ m > 1 ∨ p < 0 ∨ p > 1 ∨ s < 0 ∨ s > 1 ∨ f < 0 ∨ f > 1 then
    (.error .invalidConfiguration, tp)
  else
    (.ok (), { tp with mapNilBias := m, ptrNilBias := p,
                       sliceNilBias := s, skipFieldBias := f })

/-- `SetParamsDepthLimit(depthLimit)`. -/
def SetParamsDepthLimit (tp : TypeProvider) (d : Int) :
    (Except Err Unit) × TypeProvider :=
  if d < 0 then (.error .invalidConfiguration, tp)
  else (.ok (), { tp with depthLimit := d })

/-- `SetParamsFillUnexportedFields(fill)`. -/
def SetParamsFillUnexportedFields (tp : TypeProvider) (b : Bool) :
    (Except Err Unit) × TypeProvider :=
  (.ok (), { tp with fillUnexportedFields := b })

/-!
Runtime types and values for the `Fill` machinery.  `fillValue`
dispatches on `reflect.Kind`; the kinds it recognizes become the
constructors of `RType`.  A struct field carries the `CanSet` flag of
the corresponding `reflect.Value` (false for unexported fields).  Go
type graphs may be self-referential, which a Lean inductive tree cannot
express directly, so a named reference `named i` into a type
environment (a list of type definitions) is added; `named` is resolved
before dispatch, mirroring how `reflect` sees through the name to the
kind.
-/

/-- Runtime type descriptors, one constructor per `reflect.Kind` branch
of `fillValue`, plus `named` references for self-referential graphs and
`unsupported` for every kind the Go code leaves untouched. -/
inductive RType where
  | bool | int8 | uint8 | int16 | uint16 | int32 | uint32 | int64 | uint64
  | int | uint | float32 | float64 | complex64 | complex128 | string
  | slice (elem : RType)
  | map (key val : RType)
  | ptr (elem : RType)
  | array (n : Nat) (elem : RType)
  | strukt (fields : List (Bool × RType))
  | named (i : Nat)
  | unsupported

/-- Runtime values.  Floats and complex parts are carried as the bit
patterns produced by `math.Float32frombits` / `Float64frombits`; a map
value records the sequence of `SetMapIndex` insertions (a later
duplicate key would overwrite in Go; no theorem below depends on
duplicate keys).  `vOpaque` stands for values of unsupported kinds. -/
inductive RValue where
  | vBool (b : Bool)
  | vInt (i : Int)
  | vUint (n : Nat)
  | vFloat (bits : Nat)
  | vComplex (re im : Nat)
  | vString (bytes : List Nat)
  | vNilSlice
  | vSlice (elems : List RValue)
  | vNilMap
  | vMap (entries : List (RValue × RValue))
  | vNilPtr
  | vPtr (target : RValue)
  | vArray (elems : List RValue)
  | vStruct (fields : List RValue)
  | vOpaque

/-- Resolve `named` references through the type environment; the fuel
bounds pathological name-to-name cycles (a legal Go type always
resolves in finitely many steps). -/
def resolveTy (env : List RType) : Nat → RType → Option RType
  | 0, _ => none
  | fuel + 1, ty =>
    match ty with
    | .named i =>
      match env.get? i with
      | some ty2 => resolveTy env fuel ty2
      | none => some .unsupported
    | t => some t

/-- The zero value of a type, as produced by `reflect.New` /
`reflect.MakeSlice`: false, zero numbers, empty string, nil slices,
maps and pointers, elementwise zero arrays and fieldwise zero structs. -/
def zeroVal (env : List RType) : Nat → RType → Option RValue
  | 0, _ => none
  | fuel + 1, ty =>
    match ty with
    | .bool => some (.vBool false)
    | .int8 | .int16 | .int32 | .int64 | .int => some (.vInt 0)
    | .uint8 | .uint16 | .uint32 | .uint64 | .uint => some (.vUint 0)
    | .float32 | .float64 => some (.vFloat 0)
    | .complex64 | .complex128 => some (.vComplex 0 0)
    | .string => some (.vString [])
    | .slice _ => some .vNilSlice
    | .map _ _ => some .vNilMap
    | .ptr _ => some .vNilPtr
    | .array n e =>
      match zeroVal env fuel e with
      | none => none
      | some z => some (.vArray (List.replicate n z))
    | .strukt fields =>
      match fields.mapM (fun f => zeroVal env fuel f.2) with
      | none => none
      | some zs => some (.vStruct zs)
    | .named i =>
      match env.get? i with
      | some ty2 => zeroVal env fuel ty2
      | none => some .vOpaque
    | .unsupported => some .vOpaque

/-- Whether a resolved element type has `reflect.Kind` `Uint8`, the
test guarding the bulk byte-slice path of `fillValue`. -/
def isByteKind : RType → Bool
  | .uint8 => true
  | _ => false

/-- The recurring pattern of the primitive branches of `fillValue`:
obtain the value, propagate an error, otherwise wrap the value. -/
def liftPrim {α : Type} (g : α → RValue) (p : (Except Err α) × TypeProvider) :
    Option ((Except Err RValue) × TypeProvider) :=
  match p with
  | (.ok x, tp1) => some (.ok (g x), tp1)
  | (.error e, tp1) => some (.error e, tp1)

/-- The element loop of the slice and array branches of `fillValue`:
fill each value in order, aborting on the first error (Go's
`return err` inside the loop). -/
def fillSeq (f : RValue → TypeProvider → Option ((Except Err RValue) × TypeProvider)) :
    List RValue → TypeProvider → Option ((Except Err (List RValue)) × TypeProvider)
  | [], tp => some (.ok [], tp)
  | v :: vs, tp =>
    match f v tp with
    | none => none
    | some (.error e, tp1) => some (.error e, tp1)
    | some (.ok v1, tp1) =>
      match fillSeq f vs tp1 with
      | none => none
      | some (.error e, tp2) => some (.error e, tp2)
      | some (.ok vs1, tp2) => some (.ok (v1 :: vs1), tp2)

/-- The entry loop of the map branch of `fillValue`: for each of the
`mapSize` iterations, fill a fresh zero key then a fresh zero value
(the `stepK` / `stepV` closures carry the zero values) and append the
insertion, aborting on the first error. -/
def fillMapN (stepK stepV : TypeProvider → Option ((Except Err RValue) × TypeProvider)) :
    Nat → List (RValue × RValue) → TypeProvider →
    Option ((Except Err (List (RValue × RValue))) × TypeProvider)
  | 0, acc, tp => some (.ok acc, tp)
  | n + 1, acc, tp =>
    match stepK tp with
    | none => none
    | some (.error e, tp1) => some (.error e, tp1)
    | some (.ok k, tp1) =>
      match stepV tp1 with
      | none => none
      | some (.error e, tp2) => some (.error e, tp2)
      | some (.ok v, tp2) => fillMapN stepK stepV n (acc ++ [(k, v)]) tp2

/-- The field loop of the struct branch of `fillValue`: fields in
declaration order; a non-settable field is skipped outright (the Go
`continue`) when unexported fields are not being filled, otherwise it
is made settable (`reflect.NewAt`) and filled like an exported one. -/
def fillFields (fillUnexported : Bool)
    (f : RType → RValue → TypeProvider → Option ((Except Err RValue) × TypeProvider)) :
    List (Bool × RType) → List RValue → TypeProvider →
    Option ((Except Err (List RValue)) × TypeProvider)
  | [], vs, tp => some (.ok vs, tp)
  | _ :: _, [], tp => some (.ok [], tp)
  | (cs, ty) :: fs, v :: vs, tp =>
    if !cs && !fillUnexported then
      match fillFields fillUnexported f fs vs tp with
      | none => none
      | some (.error e, tp1) => some (.error e, tp1)
      | some (.ok vs1, tp1) => some (.ok (v :: vs1), tp1)
    else
      match f ty v tp with
      | none => none
      | some (.error e, tp1) => some (.error e, tp1)
      | some (.ok v1, tp1) =>
        match fillFields fillUnexported f fs vs tp1 with
        | none => none
        | some (.error e, tp2) => some (.error e, tp2)
        | some (.ok vs1, tp2) => some (.ok (v1 :: vs1), tp2)

/-- The kind dispatch of `fillValue` (the Go else-if chain on
`v.Kind()`), over an already-resolved type.  `rec` is the recursive
fill of a nested value (always settable in Go, since nested locations
come from `MakeSlice`, `reflect.New` and addressable fields): it
receives the nested type, its current value, the depth to fill it at
and the state.  On an element error inside a slice, map or struct loop
the error is returned and the enclosing value is reported unchanged
(for slices this matches Go, where `v.Set` is never reached; for maps
and structs Go leaves a partially filled target, a difference no
theorem below touches). -/
def fillDispatch (intnF : RandIntn) (floatF : RandFloat) (env : List RType) (fuel : Nat)
    (rec : RType → RValue → Nat → TypeProvider → Option ((Except Err RValue) × TypeProvider))
    (ty : RType) (cur : RValue) (currentDepth : Nat) (tp : TypeProvider) :
    Option ((Except Err RValue) × TypeProvider) :=
  match ty with
  | .bool => liftPrim RValue.vBool (GetBool tp)
  | .int8 => liftPrim RValue.vInt (GetInt8 tp)
  | .uint8 => liftPrim RValue.vUint (GetUint8 tp)
  | .int16 => liftPrim RValue.vInt (GetInt16 tp)
  | .uint16 => liftPrim RValue.vUint (GetUint16 tp)
  | .int32 => liftPrim RValue.vInt (GetInt32 tp)
  | .uint32 => liftPrim RValue.vUint (GetUint32 tp)
  | .int64 => liftPrim RValue.vInt (GetInt64 tp)
  | .uint64 => liftPrim RValue.vUint (GetUint64 tp)
  | .int => liftPrim RValue.vInt (GetInt tp)
  | .uint => liftPrim RValue.vUint (GetUint tp)
  | .float32 => liftPrim RValue.vFloat (GetFloat32 tp)
  | .float64 => liftPrim RValue.vFloat (GetFloat64 tp)
  | .complex64 =>
    match GetFloat32 tp with
    | (.error e, tp1) => some (.error e, tp1)
    | (.ok re, tp1) => liftPrim (RValue.vComplex re) (GetFloat32 tp1)
  | .complex128 =>
    match GetFloat64 tp with
    | (.error e, tp1) => some (.error e, tp1)
    | (.ok re, tp1) => liftPrim (RValue.vComplex re) (GetFloat64 tp1)
  | .string => liftPrim RValue.vString (GetString intnF tp)
  | .slice elem =>
    let pn := getRandomBool floatF tp tp.sliceNilBias
    if pn.1 then some (.ok .vNilSlice, pn.2)
    else
      let tp1 := pn.2
      let pz := getRandomSize intnF tp1 tp1.sliceMinSize tp1.sliceMaxSize
      let sliceSize := pz.1
      let tp2 := pz.2
      match resolveTy env (fuel + 1) elem with
      | none => none
      | some ety =>
        if isByteKind ety then
          match GetNBytes tp2 sliceSize with
          | (.ok bs, tp3) => some (.ok (.vSlice (bs.map RValue.vUint)), tp3)
          | (.error e, tp3) => some (.error e, tp3)
        else
          match zeroVal env fuel ety with
          | none => none
          | some z =>
            match fillSeq (fun v tpx => rec ety v currentDepth tpx)
                (List.replicate sliceSize.toNat z) tp2 with
            | none => none
            | some (.error e, tp3) => some (.error e, tp3)
            | some (.ok vs, tp3) => some (.ok (.vSlice vs), tp3)
  | .map kty vty =>
    let pn := getRandomBool floatF tp tp.mapNilBias
    if pn.1 then some (.ok .vNilMap, pn.2)
    else
      let tp1 := pn.2
      let pz := getRandomSize intnF tp1 tp1.mapMinSize tp1.mapMaxSize
      let mapSize := pz.1
      let tp2 := pz.2
      match zeroVal env fuel kty, zeroVal env fuel vty with
      | some zk, some zv =>
        match fillMapN
            (fun tpx => rec kty zk currentDepth tpx)
            (fun tpx => rec vty zv currentDepth tpx)
            mapSize.toNat [] tp2 with
        | none => none
        | some (.error e, tp3) => some (.error e, tp3)
        | some (.ok entries, tp3) => some (.ok (.vMap entries), tp3)
      | _, _ => none
  | .ptr elem =>
    let pn := getRandomBool floatF tp tp.ptrNilBias
    if pn.1 then some (.ok .vNilPtr, pn.2)
    else
      let tp1 := pn.2
      match zeroVal env fuel elem with
      | none => none
      | some z =>
        match rec elem z currentDepth tp1 with
        | none => none
        | some (.error e, tp2) => some (.error e, tp2)
        | some (.ok v1, tp2) => some (.ok (.vPtr v1), tp2)
  | .array _ elem =>
    match cur with
    | .vArray vs =>
      match fillSeq (fun v tpx => rec elem v currentDepth tpx) vs tp with
      | none => none
      | some (.error e, tp1) => some (.error e, tp1)
      | some (.ok vs1, tp1) => some (.ok (.vArray vs1), tp1)
    | _ => some (.ok cur, tp)
  | .strukt fields =>
    if tp.depthLimit = 0 ∨ (currentDepth : Int) < tp.depthLimit then
      match cur with
      | .vStruct vs =>
        match fillFields tp.fillUnexportedFields
            (fun fty v tpx => rec fty v (currentDepth + 1) tpx)
            fields vs tp with
        | none => none
        | some (.error e, tp1) => some (.error e, tp1)
        | some (.ok vs1, tp1) => some (.ok (.vStruct vs1), tp1)
      | _ => some (.ok cur, tp)
    else some (.ok cur, tp)
  | .named _ => some (.ok cur, tp)
  | .unsupported => some (.ok cur, tp)

/-- `fillValue(v, currentDepth)`.  The result is the updated value
paired with the post-state; the outer `Option` is the fuel of the
embedding (`none` = the recursion did not finish within `fuel` steps; a
terminating Go run is `some` for every sufficiently large fuel).  The
body is the Go function verbatim: the `CanSet` early return, then the
skip-bias draw, then the kind dispatch (`fillDispatch`) on the resolved
type, recursing through `fillValue` at one fuel less. -/
def fillValue (intnF : RandIntn) (floatF : RandFloat) (env : List RType) :
    Nat → RType → RValue → Bool → Nat → TypeProvider →
    Option ((Except Err RValue) × TypeProvider)
  | 0, _, _, _, _, _ => none
  | fuel + 1, ty0, cur, canSet, currentDepth, tp =>
    if !canSet then some (.ok cur, tp)
    else
      let ps := getRandomBool floatF tp tp.skipFieldBias
      if ps.1 then some (.ok cur, ps.2)
      else
        match resolveTy env (fuel + 1) ty0 with
        | none => none
        | some ty =>
          fillDispatch intnF floatF env fuel
            (fun t v dd tpx => fillValue intnF floatF env fuel t v true dd tpx)
            ty cur currentDepth ps.2

/-- `Fill(i)`: dereference the supplied location and fill it at depth
zero.  `canSet` is the settability of the dereferenced location: false
when the caller passed a plain value or a nil interface rather than a
pointer to a variable. -/
def Fill (intnF : RandIntn) (floatF : RandFloat) (env : List RType)
    (fuel : Nat) (ty : RType) (cur : RValue) (canSet : Bool) (tp : TypeProvider) :
    Option ((Except Err RValue) × TypeProvider) :=
  fillValue intnF floatF env fuel ty cur canSet 0 tp

/-!
Operation sequences.  `Op` enumerates the public operations of the
provider; `applyOp` runs one of them, `runOps` a whole sequence,
collecting the returned values.  This is the vocabulary in which the
whole-object properties (determinism, cursor monotonicity, the cursor
invariant) are stated.
-/

/-- One public operation of the provider. -/
inductive Op where
  | opGetByte | opGetBool | opGetUint8 | opGetInt8 | opGetUint16 | opGetInt16
  | opGetUint32 | opGetInt32 | opGetUint64 | opGetInt64 | opGetUint | opGetInt
  | opGetFloat32 | opGetFloat64
  | opGetNBytes (n : Int)
  | opGetFixedString (n : Int)
  | opGetBytes
  | opGetString
  | opReset
  | opFill (env : List RType) (fuel : Nat) (ty : RType) (cur : RValue) (canSet : Bool)
  | opSetSliceBounds (mn mx : Int)
  | opSetMapBounds (mn mx : Int)
  | opSetStringBounds (mn mx : Int)
  | opSetBiases (m p s f : ℚ)
  | opSetDepthLimit (d : Int)
  | opSetFillUnexportedFields (b : Bool)

/-- The value an operation returned. -/
inductive OpResult where
  | rBytes (r : Except Err (List Nat))
  | rNat (r : Except Err Nat)
  | rInt (r : Except Err Int)
  | rBool (r : Except Err Bool)
  | rUnit (r : Except Err Unit)
  | rFill (r : Option (Except Err RValue))

/-- Run one operation. -/
def applyOp (intnF : RandIntn) (floatF : RandFloat) (op : Op) (tp : TypeProvider) :
    OpResult × TypeProvider :=
  match op with
  | .opGetByte => let p := GetByte tp; (.rNat p.1, p.2)
  | .opGetBool => let p := GetBool tp; (.rBool p.1, p.2)
  | .opGetUint8 => let p := GetUint8 tp; (.rNat p.1, p.2)
  | .opGetInt8 => let p := GetInt8 tp; (.rInt p.1, p.2)
  | .opGetUint16 => let p := GetUint16 tp; (.rNat p.1, p.2)
  | .opGetInt16 => let p := GetInt16 tp; (.rInt p.1, p.2)
  | .opGetUint32 => let p := GetUint32 tp; (.rNat p.1, p.2)
  | .opGetInt32 => let p := GetInt32 tp; (.rInt p.1, p.2)
  | .opGetUint64 => let p := GetUint64 tp; (.rNat p.1, p.2)
  | .opGetInt64 => let p := GetInt64 tp; (.rInt p.1, p.2)
  | .opGetUint => let p := GetUint tp; (.rNat p.1, p.2)
  | .opGetInt => let p := GetInt tp; (.rInt p.1, p.2)
  | .opGetFloat32 => let p := GetFloat32 tp; (.rNat p.1, p.2)
  | .opGetFloat64 => let p := GetFloat64 tp; (.rNat p.1, p.2)
  | .opGetNBytes n => let p := GetNBytes tp n; (.rBytes p.1, p.2)
  | .opGetFixedString n => let p := GetFixedString tp n; (.rBytes p.1, p.2)
  | .opGetBytes => let p := GetBytes intnF tp; (.rBytes p.1, p.2)
  | .opGetString => let p := GetString intnF tp; (.rBytes p.1, p.2)
  | .opReset => let p := Reset tp; (.rUnit p.1, p.2)
  | .opFill env fuel ty cur canSet =>
    match Fill intnF floatF env fuel ty cur canSet tp with
    | none => (.rFill none, tp)
    | some (r, tp1) => (.rFill (some r), tp1)
  | .opSetSliceBounds mn mx => let p := SetParamsSliceBounds tp mn mx; (.rUnit p.1, p.2)
  | .opSetMapBounds mn mx => let p := SetParamsMapBounds tp mn mx; (.rUnit p.1, p.2)
  | .opSetStringBounds mn mx => let p := SetParamsStringBounds tp mn mx; (.rUnit p.1, p.2)
  | .opSetBiases m p s f => let q := SetParamsBiases tp m p s f; (.rUnit q.1, q.2)
  | .opSetDepthLimit d => let p := SetParamsDepthLimit tp d; (.rUnit p.1, p.2)
  | .opSetFillUnexportedFields b =>
    let p := SetParamsFillUnexportedFields tp b; (.rUnit p.1, p.2)

/-- Run a sequence of operations, collecting every returned value and
the final state. -/
def runOps (intnF : RandIntn) (floatF : RandFloat) :
    List Op → TypeProvider → List OpResult × TypeProvider
  | [], tp => ([], tp)
  | op :: ops, tp =>
    let p := applyOp intnF floatF op tp
    let q := runOps intnF floatF ops p.2
    (p.1 :: q.1, q.2)

/-- The primitive read operations: `GetNBytes`, `GetByte` and the
accessors built on them (the claim scope of the error/cursor
property); `Reset`, `Fill` and the configuration setters are not
reads. -/
def Op.isPrimRead : Op → Bool
  | .opGetByte | .opGetBool | .opGetUint8 | .opGetInt8 | .opGetUint16 | .opGetInt16
  | .opGetUint32 | .opGetInt32 | .opGetUint64 | .opGetInt64 | .opGetUint | .opGetInt
  | .opGetFloat32 | .opGetFloat64
  | .opGetNBytes _ | .opGetFixedString _ | .opGetBytes | .opGetString => true
  | _ => false

/-- Whether an operation returned an error. -/
def OpResult.hasError : OpResult → Bool
  | .rBytes (.error _) => true
  | .rNat (.error _) => true
  | .rInt (.error _) => true
  | .rBool (.error _) => true
  | .rUnit (.error _) => true
  | .rFill (some (.error _)) => true
  | _ => false

/-- The cursor invariant: the offset lies between zero and the buffer
length. -/
def Inv (tp : TypeProvider) : Prop :=
  0 ≤ tp.position ∧ tp.position ≤ (tp.data.length : Int)

/-!
Concrete generator models and buffers used by witnesses and
counterexamples.
-/

/-- A concrete generator model whose every size draw is zero. -/
def intnZero : RandIntn := fun _ _ _ => 0

/-- A concrete generator model whose every float draw is zero (a legal
`Float32` outcome, lying in `[0, 1)`). -/
def floatZero : RandFloat := fun _ _ => 0

/-- The canonical regression buffer: 256 descending bytes,
`data[i] = 255 - i`. -/
def descBuf : List Nat := (List.range 256).map (fun i => 255 - i)

/-- A provider over the empty buffer with default parameters. -/
def emptyTP : TypeProvider := initialProvider []

/-- The provider obtained from eight zero bytes. -/
def zeroTP8 : TypeProvider := { initialProvider (List.replicate 8 0) with position := 8 }

/-!
Characterisations of the bounds check and of `GetNBytes`, shared by
several claims below.
-/

/-- When the cursor is in bounds and the request non-negative, the
bounds check reduces to the exhaustion test. -/
theorem validateBounds_char (tp : TypeProvider) (n : Int)
    (h0 : 0 ≤ tp.position) (h1 : tp.position ≤ (tp.data.length : Int)) (hn : 0 ≤ n) :
    validateBounds tp n =
      if (tp.data.length : Int) - tp.position < n then some .endOfStream else none := by
  unfold validateBounds
  rw [if_neg (by omega), if_neg (by omega)]

/-- When the cursor is in bounds and the request non-negative,
`GetNBytes` either fails with end of stream (exactly on exhaustion,
leaving the state untouched) or returns the requested window and
advances. -/
theorem getNBytes_char (tp : TypeProvider) (n : Int)
    (h0 : 0 ≤ tp.position) (h1 : tp.position ≤ (tp.data.length : Int)) (hn : 0 ≤ n) :
    GetNBytes tp n =
      if (tp.data.length : Int) - tp.position < n then (.error .endOfStream, tp)
      else (.ok ((tp.data.drop tp.position.toNat).take n.toNat),
            { tp with position := tp.position + n }) := by
  unfold GetNBytes
  rw [validateBounds_char tp n h0 h1 hn]
  by_cases h : (tp.data.length : Int) - tp.position < n <;> simp [h]

/-!
State-evolution contract used for the cursor claims: every operation
leaves the buffer unchanged, never moves the cursor backwards, and
preserves the cursor invariant.
-/

/-- The step contract between a pre-state and a post-state. -/
def Step (tp tp' : TypeProvider) : Prop :=
  tp'.data = tp.data ∧ tp.position ≤ tp'.position ∧ (Inv tp → Inv tp')

theorem Step.rfl (tp : TypeProvider) : Step tp tp := ⟨by rfl, le_rfl, id⟩

theorem Step.trans {a b c : TypeProvider} (h1 : Step a b) (h2 : Step b c) :
    Step a c :=
  ⟨h2.1.trans h1.1, h1.2.1.trans h2.2.1, fun h => h2.2.2 (h1.2.2 h)⟩

/-- What a passing bounds check guarantees. -/
theorem validateBounds_none (tp : TypeProvider) (n : Int)
    (hv : validateBounds tp n = none) :
    0 ≤ n ∧ 0 ≤ tp.position ∧ tp.position ≤ (tp.data.length : Int) ∧
      n ≤ (tp.data.length : Int) - tp.position := by
  unfold validateBounds at hv
  split_ifs at hv with h1 h2 h3 <;> first | exact Option.noConfusion hv | omega

theorem step_bump (tp : TypeProvider) : Step tp (bump tp) :=
  ⟨by rfl, le_rfl, fun h => h⟩

theorem step_GetNBytes (tp : TypeProvider) (n : Int) : Step tp (GetNBytes tp n).2 := by
  unfold GetNBytes
  cases hv : validateBounds tp n with
  | none =>
    have h := validateBounds_none tp n hv
    simp only [hv]
    refine ⟨by rfl, ?_, fun _ => ⟨?_, ?_⟩⟩
    · show tp.position ≤ tp.position + n; omega
    · show (0 : Int) ≤ tp.position + n; omega
    · show tp.position + n ≤ ((tp.data.length : Int)); omega
  | some e =>
    simp only [hv]
    exact Step.rfl tp

theorem step_GetByte (tp : TypeProvider) : Step tp (GetByte tp).2 := by
  unfold GetByte
  cases hv : validateBounds tp 1 with
  | none =>
    have h := validateBounds_none tp 1 hv
    simp only [hv]
    refine ⟨by rfl, ?_, fun _ => ⟨?_, ?_⟩⟩
    · show tp.position ≤ tp.position + 1; omega
    · show (0 : Int) ≤ tp.position + 1; omega
    · show tp.position + 1 ≤ ((tp.data.length : Int)); omega
  | some e =>
    simp only [hv]
    exact Step.rfl tp

theorem snd_GetBool (tp : TypeProvider) : (GetBool tp).2 = (GetByte tp).2 := by
  unfold GetBool
  cases GetByte tp with
  | mk r t => cases r <;> rfl

theorem snd_GetInt8 (tp : TypeProvider) : (GetInt8 tp).2 = (GetByte tp).2 := by
  unfold GetInt8
  cases GetByte tp with
  | mk r t => cases r <;> rfl

theorem snd_GetUint16 (tp : TypeProvider) : (GetUint16 tp).2 = (GetNBytes tp 2).2 := by
  unfold GetUint16
  cases GetNBytes tp 2 with
  | mk r t => cases r <;> rfl

theorem snd_GetInt16 (tp : TypeProvider) : (GetInt16 tp).2 = (GetNBytes tp 2).2 := by
  unfold GetInt16
  rw [← snd_GetUint16]
  cases GetUint16 tp with
  | mk r t => cases r <;> rfl

theorem snd_GetUint32 (tp : TypeProvider) : (GetUint32 tp).2 = (GetNBytes tp 4).2 := by
  unfold GetUint32
  cases GetNBytes tp 4 with
  | mk r t => cases r <;> rfl

theorem snd_GetInt32 (tp : TypeProvider) : (GetInt32 tp).2 = (GetNBytes tp 4).2 := by
  unfold GetInt32
  rw [← snd_GetUint32]
  cases GetUint32 tp with
  | mk r t => cases r <;> rfl

theorem snd_GetUint64 (tp : TypeProvider) : (GetUint64 tp).2 = (GetNBytes tp 8).2 := by
  unfold GetUint64
  cases GetNBytes tp 8 with
  | mk r t => cases r <;> rfl

theorem snd_GetInt64 (tp : TypeProvider) : (GetInt64 tp).2 = (GetNBytes tp 8).2 := by
  unfold GetInt64
  rw [← snd_GetUint64]
  cases GetUint64 tp with
  | mk r t => cases r <;> rfl

theorem snd_GetInt (tp : TypeProvider) : (GetInt tp).2 = (GetNBytes tp 8).2 := by
  unfold GetInt
  rw [← snd_GetUint64]
  cases GetUint64 tp with
  | mk r t => cases r <;> rfl

theorem step_GetBool (tp : TypeProvider) : Step tp (GetBool tp).2 := by
  rw [snd_GetBool]; exact step_GetByte tp

theorem step_GetUint8 (tp : TypeProvider) : Step tp (GetUint8 tp).2 :=
  step_GetByte tp

theorem step_GetInt8 (tp : TypeProvider) : Step tp (GetInt8 tp).2 := by
  rw [snd_GetInt8]; exact step_GetByte tp

theorem step_GetUint16 (tp : TypeProvider) : Step tp (GetUint16 tp).2 := by
  rw [snd_GetUint16]; exact step_GetNBytes tp 2

theorem step_GetInt16 (tp : TypeProvider) : Step tp (GetInt16 tp).2 := by
  rw [snd_GetInt16]; exact step_GetNBytes tp 2

theorem step_GetUint32 (tp : TypeProvider) : Step tp (GetUint32 tp).2 := by
  rw [snd_GetUint32]; exact step_GetNBytes tp 4

theorem step_GetInt32 (tp : TypeProvider) : Step tp (GetInt32 tp).2 := by
  rw [snd_GetInt32]; exact step_GetNBytes tp 4

theorem step_GetUint64 (tp : TypeProvider) : Step tp (GetUint64 tp).2 := by
  rw [snd_GetUint64]; exact step_GetNBytes tp 8

theorem step_GetInt64 (tp : TypeProvider) : Step tp (GetInt64 tp).2 := by
  rw [snd_GetInt64]; exact step_GetNBytes tp 8

theorem step_GetUint (tp : TypeProvider) : Step tp (GetUint tp).2 :=
  step_GetUint64 tp

theorem step_GetInt (tp : TypeProvider) : Step tp (GetInt tp).2 := by
  rw [snd_GetInt]; exact step_GetNBytes tp 8

theorem step_GetFloat32 (tp : TypeProvider) : Step tp (GetFloat32 tp).2 :=
  step_GetUint32 tp

theorem step_GetFloat64 (tp : TypeProvider) : Step tp (GetFloat64 tp).2 :=
  step_GetUint64 tp

theorem step_GetFixedString (tp : TypeProvider) (n : Int) :
    Step tp (GetFixedString tp n).2 :=
  step_GetNBytes tp n

theorem step_GetBytes (intnF : RandIntn) (tp : TypeProvider) :
    Step tp (GetBytes intnF tp).2 := by
  unfold GetBytes getRandomSize
  exact Step.trans (step_bump tp) (step_GetNBytes _ _)

theorem step_GetString (intnF : RandIntn) (tp : TypeProvider) :
    Step tp (GetString intnF tp).2 := by
  unfold GetString getRandomSize
  exact Step.trans (step_bump tp) (step_GetNBytes _ _)

/-- The seed read of `Reset`, written over the clean condition
`length < 8`. -/
theorem reset_seed_read (tp : TypeProvider) :
    GetNBytes { tp with position := 0 } 8 =
      if (tp.data.length : Int) < 8 then
        (.error .endOfStream, { tp with position := 0 })
      else
        (.ok ((tp.data.drop (0 : Int).toNat).take (8 : Int).toNat),
         { tp with position := 0 + 8 }) := by
  rw [getNBytes_char { tp with position := 0 } 8
    (show (0 : Int) ≤ 0 by omega)
    (show (0 : Int) ≤ ((tp.data.length : Int)) by omega)
    (by omega)]
  split
  · next h =>
    have h2 : (tp.data.length : Int) - 0 < 8 := h
    rw [if_pos (by omega)]
  · next h =>
    have h2 : ¬ ((tp.data.length : Int) - 0 < 8) := h
    rw [if_neg (by omega)]

/-- `Reset` keeps the buffer and restores the invariant (the cursor
lands at 8 on success and at 0 on failure), though it may rewind. -/
theorem reset_inv (tp : TypeProvider) :
    (Reset tp).2.data = tp.data ∧ Inv (Reset tp).2 := by
  unfold Reset GetInt64 GetUint64
  simp only [reset_seed_read tp]
  by_cases hlt : (tp.data.length : Int) < 8
  · rw [if_pos hlt]
    refine ⟨by rfl, ?_, ?_⟩
    · show (0 : Int) ≤ 0; omega
    · show (0 : Int) ≤ ((tp.data.length : Int)); omega
  · rw [if_neg hlt]
    refine ⟨by rfl, ?_, ?_⟩
    · show (0 : Int) ≤ 0 + 8; omega
    · show (0 : Int) + 8 ≤ ((tp.data.length : Int)); omega

theorem liftPrim_step {α : Type} (g : α → RValue) (p : (Except Err α) × TypeProvider)
    (tp : TypeProvider) (hstep : Step tp p.2) :
    ∀ (r : Except Err RValue) (tp' : TypeProvider),
      liftPrim g p = some (r, tp') → Step tp tp' := by
  intro r tp' h
  rcases p with ⟨pr, pt⟩
  cases pr with
  | ok x => cases h; exact hstep
  | error e => cases h; exact hstep

theorem fillSeq_step (f : RValue → TypeProvider → Option ((Except Err RValue) × TypeProvider))
    (hf : ∀ v tp r tp', f v tp = some (r, tp') → Step tp tp') :
    ∀ (l : List RValue) (tp : TypeProvider) (r : Except Err (List RValue))
      (tp' : TypeProvider), fillSeq f l tp = some (r, tp') → Step tp tp' := by
  intro l
  induction l with
  | nil =>
    intro tp r tp' h
    cases h
    exact Step.rfl tp
  | cons v vs ih =>
    intro tp r tp' h
    unfold fillSeq at h
    cases h1 : f v tp with
    | none => rw [h1] at h; cases h
    | some p =>
      rcases p with ⟨r1, tp1⟩
      rw [h1] at h
      cases r1 with
      | error e =>
        cases h
        exact hf _ _ _ _ h1
      | ok v1 =>
        dsimp only at h
        cases h2 : fillSeq f vs tp1 with
        | none => rw [h2] at h; cases h
        | some q =>
          rcases q with ⟨r2, tp2⟩
          rw [h2] at h
          cases r2 with
          | error e =>
            cases h
            exact Step.trans (hf _ _ _ _ h1) (ih _ _ _ h2)
          | ok vs1 =>
            cases h
            exact Step.trans (hf _ _ _ _ h1) (ih _ _ _ h2)

theorem fillMapN_step (stepK stepV : TypeProvider → Option ((Except Err RValue) × TypeProvider))
    (hK : ∀ tp r tp', stepK tp = some (r, tp') → Step tp tp')
    (hV : ∀ tp r tp', stepV tp = some (r, tp') → Step tp tp') :
    ∀ (n : Nat) (acc : List (RValue × RValue)) (tp : TypeProvider)
      (r : Except Err (List (RValue × RValue))) (tp' : TypeProvider),
      fillMapN stepK stepV n acc tp = some (r, tp') → Step tp tp' := by
  intro n
  induction n with
  | zero =>
    intro acc tp r tp' h
    cases h
    exact Step.rfl tp
  | succ m ih =>
    intro acc tp r tp' h
    unfold fillMapN at h
    cases h1 : stepK tp with
    | none => rw [h1] at h; cases h
    | some p =>
      rcases p with ⟨r1, tp1⟩
      rw [h1] at h
      cases r1 with
      | error e =>
        cases h
        exact hK _ _ _ h1
      | ok k =>
        dsimp only at h
        cases h2 : stepV tp1 with
        | none => rw [h2] at h; cases h
        | some q =>
          rcases q with ⟨r2, tp2⟩
          rw [h2] at h
          cases r2 with
          | error e =>
            cases h
            exact Step.trans (hK _ _ _ h1) (hV _ _ _ h2)
          | ok v =>
            dsimp only at h
            exact Step.trans (hK _ _ _ h1) (Step.trans (hV _ _ _ h2) (ih _ _ _ _ h))

theorem fillFields_step (fu : Bool)
    (f : RType → RValue → TypeProvider → Option ((Except Err RValue) × TypeProvider))
    (hf : ∀ ty v tp r tp', f ty v tp = some (r, tp') → Step tp tp') :
    ∀ (fs : List (Bool × RType)) (vs : List RValue) (tp : TypeProvider)
      (r : Except Err (List RValue)) (tp' : TypeProvider),
      fillFields fu f fs vs tp = some (r, tp') → Step tp tp' := by
  intro fs
  induction fs with
  | nil =>
    intro vs tp r tp' h
    cases h
    exact Step.rfl tp
  | cons fd fs2 ih =>
    intro vs tp r tp' h
    rcases fd with ⟨cs, ty⟩
    cases vs with
    | nil =>
      unfold fillFields at h
      cases h
      exact Step.rfl tp
    | cons v vs2 =>
      unfold fillFields at h
      by_cases hcs : (!cs && !fu) = true
      · rw [if_pos hcs] at h
        cases h2 : fillFields fu f fs2 vs2 tp with
        | none => rw [h2] at h; cases h
        | some q =>
          rcases q with ⟨r2, tp2⟩
          rw [h2] at h
          cases r2 with
          | error e =>
            cases h
            exact ih _ _ _ _ h2
          | ok vs3 =>
            cases h
            exact ih _ _ _ _ h2
      · rw [if_neg hcs] at h
        cases h1 : f ty v tp with
        | none => rw [h1] at h; cases h
        | some p =>
          rcases p with ⟨r1, tp1⟩
          rw [h1] at h
          cases r1 with
          | error e =>
            cases h
            exact hf _ _ _ _ _ h1
          | ok v1 =>
            dsimp only at h
            cases h2 : fillFields fu f fs2 vs2 tp1 with
            | none => rw [h2] at h; cases h
            | some q =>
              rcases q with ⟨r2, tp2⟩
              rw [h2] at h
              cases r2 with
              | error e =>
                cases h
                exact Step.trans (hf _ _ _ _ _ h1) (ih _ _ _ _ h2)
              | ok vs3 =>
                cases h
                exact Step.trans (hf _ _ _ _ _ h1) (ih _ _ _ _ h2)

/-!
Unfolding lemmas for `fillValue`.
-/

theorem fillValue_notCanSet (intnF : RandIntn) (floatF : RandFloat) (env : List RType)
    (fuel : Nat) (ty : RType) (cur : RValue) (d : Nat) (tp : TypeProvider) :
    fillValue intnF floatF env (fuel + 1) ty cur false d tp = some (.ok cur, tp) := rfl

theorem fillValue_skip (intnF : RandIntn) (floatF : RandFloat) (env : List RType)
    (fuel : Nat) (ty : RType) (cur : RValue) (d : Nat) (tp : TypeProvider)
    (hskip : floatF tp.seed tp.randCount < tp.skipFieldBias) :
    fillValue intnF floatF env (fuel + 1) ty cur true d tp = some (.ok cur, bump tp) := by
  simp [fillValue, getRandomBool, hskip]

theorem fillValue_noskip (intnF : RandIntn) (floatF : RandFloat) (env : List RType)
    (fuel : Nat) (ty : RType) (cur : RValue) (d : Nat) (tp : TypeProvider)
    (hns : ¬ (floatF tp.seed tp.randCount < tp.skipFieldBias)) :
    fillValue intnF floatF env (fuel + 1) ty cur true d tp =
      match resolveTy env (fuel + 1) ty with
      | none => none
      | some ty1 =>
        fillDispatch intnF floatF env fuel
          (fun t v dd tpx => fillValue intnF floatF env fuel t v true dd tpx)
          ty1 cur d (bump tp) := by
  simp [fillValue, getRandomBool, hns]

/-- The dispatch preserves the step contract whenever the recursive
fill does. -/
theorem fillDispatch_step (intnF : RandIntn) (floatF : RandFloat) (env : List RType)
    (fuel : Nat)
    (rec : RType → RValue → Nat → TypeProvider → Option ((Except Err RValue) × TypeProvider))
    (hrec : ∀ t v dd tp r tp', rec t v dd tp = some (r, tp') → Step tp tp') :
    ∀ (ty : RType) (cur : RValue) (d : Nat) (tp : TypeProvider) (r : Except Err RValue)
      (tp' : TypeProvider),
      fillDispatch intnF floatF env fuel rec ty cur d tp = some (r, tp') → Step tp tp' := by
  intro ty cur d tp r tp' h
  cases ty with
  | bool => exact liftPrim_step _ _ _ (step_GetBool tp) _ _ h
  | int8 => exact liftPrim_step _ _ _ (step_GetInt8 tp) _ _ h
  | uint8 => exact liftPrim_step _ _ _ (step_GetUint8 tp) _ _ h
  | int16 => exact liftPrim_step _ _ _ (step_GetInt16 tp) _ _ h
  | uint16 => exact liftPrim_step _ _ _ (step_GetUint16 tp) _ _ h
  | int32 => exact liftPrim_step _ _ _ (step_GetInt32 tp) _ _ h
  | uint32 => exact liftPrim_step _ _ _ (step_GetUint32 tp) _ _ h
  | int64 => exact liftPrim_step _ _ _ (step_GetInt64 tp) _ _ h
  | uint64 => exact liftPrim_step _ _ _ (step_GetUint64 tp) _ _ h
  | int => exact liftPrim_step _ _ _ (step_GetInt tp) _ _ h
  | uint => exact liftPrim_step _ _ _ (step_GetUint tp) _ _ h
  | float32 => exact liftPrim_step _ _ _ (step_GetFloat32 tp) _ _ h
  | float64 => exact liftPrim_step _ _ _ (step_GetFloat64 tp) _ _ h
  | string => exact liftPrim_step _ _ _ (step_GetString intnF tp) _ _ h
  | complex64 =>
    dsimp only [fillDispatch] at h
    cases h1 : GetFloat32 tp with
    | mk r1 t1 =>
      have hs1 : Step tp t1 := by
        have := step_GetFloat32 tp
        rw [h1] at this
        exact this
      rw [h1] at h
      cases r1 with
      | error e => cases h; exact hs1
      | ok re =>
        dsimp only at h
        exact Step.trans hs1 (liftPrim_step _ _ _ (step_GetFloat32 t1) _ _ h)
  | complex128 =>
    dsimp only [fillDispatch] at h
    cases h1 : GetFloat64 tp with
    | mk r1 t1 =>
      have hs1 : Step tp t1 := by
        have := step_GetFloat64 tp
        rw [h1] at this
        exact this
      rw [h1] at h
      cases r1 with
      | error e => cases h; exact hs1
      | ok re =>
        dsimp only at h
        exact Step.trans hs1 (liftPrim_step _ _ _ (step_GetFloat64 t1) _ _ h)
  | named i =>
    cases h
    exact Step.rfl tp
  | unsupported =>
    cases h
    exact Step.rfl tp
  | slice elem =>
    dsimp only [fillDispatch] at h
    split at h
    · cases h
      exact step_bump tp
    · set tpA := (getRandomBool floatF tp tp.sliceNilBias).2 with hA
      set pzA := getRandomSize intnF tpA tpA.sliceMinSize tpA.sliceMaxSize with hB
      have hsA : Step tp tpA := by rw [hA]; exact step_bump tp
      have hsB : Step tpA pzA.2 := by rw [hB]; exact step_bump tpA
      have hs2 : Step tp pzA.2 := Step.trans hsA hsB
      cases hres : resolveTy env (fuel + 1) elem with
      | none => rw [hres] at h; exact Option.noConfusion h
      | some ety =>
        rw [hres] at h
        dsimp only at h
        split at h
        · cases h3 : GetNBytes pzA.2 pzA.1 with
          | mk r3 t3 =>
            have hs3 : Step pzA.2 t3 := by
              have hx := step_GetNBytes pzA.2 pzA.1
              rw [h3] at hx
              exact hx
            rw [h3] at h
            cases r3 with
            | ok bs => cases h; exact Step.trans hs2 hs3
            | error e => cases h; exact Step.trans hs2 hs3
        · cases hz : zeroVal env fuel ety with
          | none => rw [hz] at h; exact Option.noConfusion h
          | some z =>
            rw [hz] at h
            dsimp only at h
            cases h4 : fillSeq (fun v tpx => rec ety v d tpx)
                (List.replicate pzA.1.toNat z) pzA.2 with
            | none => rw [h4] at h; exact Option.noConfusion h
            | some q =>
              rcases q with ⟨r4, t4⟩
              have hs4 : Step pzA.2 t4 :=
                fillSeq_step _ (fun v tpx rr tpx' hx => hrec _ _ _ _ _ _ hx) _ _ _ _ h4
              rw [h4] at h
              cases r4 with
              | error e => cases h; exact Step.trans hs2 hs4
              | ok vs => cases h; exact Step.trans hs2 hs4
  | map kty vty =>
    dsimp only [fillDispatch] at h
    split at h
    · cases h
      exact step_bump tp
    · set tpA := (getRandomBool floatF tp tp.mapNilBias).2 with hA
      set pzA := getRandomSize intnF tpA tpA.mapMinSize tpA.mapMaxSize with hB
      have hsA : Step tp tpA := by rw [hA]; exact step_bump tp
      have hsB : Step tpA pzA.2 := by rw [hB]; exact step_bump tpA
      have hs2 : Step tp pzA.2 := Step.trans hsA hsB
      cases hzk : zeroVal env fuel kty with
      | none => rw [hzk] at h; exact Option.noConfusion h
      | some zk =>
        rw [hzk] at h
        cases hzv : zeroVal env fuel vty with
        | none => rw [hzv] at h; exact Option.noConfusion h
        | some zv =>
          rw [hzv] at h
          dsimp only at h
          cases h4 : fillMapN (fun tpx => rec kty zk d tpx) (fun tpx => rec vty zv d tpx)
              pzA.1.toNat [] pzA.2 with
          | none => rw [h4] at h; exact Option.noConfusion h
          | some q =>
            rcases q with ⟨r4, t4⟩
            have hs4 : Step pzA.2 t4 :=
              fillMapN_step _ _ (fun tpx rr tpx' hx => hrec _ _ _ _ _ _ hx)
                (fun tpx rr tpx' hx => hrec _ _ _ _ _ _ hx) _ _ _ _ _ h4
            rw [h4] at h
            cases r4 with
            | error e => cases h; exact Step.trans hs2 hs4
            | ok entries => cases h; exact Step.trans hs2 hs4
  | ptr elem =>
    dsimp only [fillDispatch] at h
    split at h
    · cases h
      exact step_bump tp
    · set tpA := (getRandomBool floatF tp tp.ptrNilBias).2 with hA
      have hsA : Step tp tpA := by rw [hA]; exact step_bump tp
      cases hz : zeroVal env fuel elem with
      | none => rw [hz] at h; exact Option.noConfusion h
      | some z =>
        rw [hz] at h
        dsimp only at h
        cases h4 : rec elem z d tpA with
        | none => rw [h4] at h; exact Option.noConfusion h
        | some q =>
          rcases q with ⟨r4, t4⟩
          have hs4 : Step tpA t4 := hrec _ _ _ _ _ _ h4
          rw [h4] at h
          cases r4 with
          | error e => cases h; exact Step.trans hsA hs4
          | ok v1 => cases h; exact Step.trans hsA hs4
  | array n elem =>
    dsimp only [fillDispatch] at h
    cases cur with
    | vArray vs =>
      dsimp only at h
      cases h4 : fillSeq (fun v tpx => rec elem v d tpx) vs tp with
      | none => rw [h4] at h; exact Option.noConfusion h
      | some q =>
        rcases q with ⟨r4, t4⟩
        have hs4 : Step tp t4 :=
          fillSeq_step _ (fun v tpx rr tpx' hx => hrec _ _ _ _ _ _ hx) _ _ _ _ h4
        rw [h4] at h
        cases r4 with
        | error e => cases h; exact hs4
        | ok vs1 => cases h; exact hs4
    | vBool b => cases h; exact Step.rfl tp
    | vInt i => cases h; exact Step.rfl tp
    | vUint u => cases h; exact Step.rfl tp
    | vFloat b => cases h; exact Step.rfl tp
    | vComplex a b => cases h; exact Step.rfl tp
    | vString bs => cases h; exact Step.rfl tp
    | vNilSlice => cases h; exact Step.rfl tp
    | vSlice es => cases h; exact Step.rfl tp
    | vNilMap => cases h; exact Step.rfl tp
    | vMap es => cases h; exact Step.rfl tp
    | vNilPtr => cases h; exact Step.rfl tp
    | vPtr v => cases h; exact Step.rfl tp
    | vStruct fs => cases h; exact Step.rfl tp
    | vOpaque => cases h; exact Step.rfl tp
  | strukt fields =>
    dsimp only [fillDispatch] at h
    split at h
    · cases cur with
      | vStruct vs =>
        dsimp only at h
        cases h4 : fillFields tp.fillUnexportedFields
            (fun fty v tpx => rec fty v (d + 1) tpx) fields vs tp with
        | none => rw [h4] at h; exact Option.noConfusion h
        | some q =>
          rcases q with ⟨r4, t4⟩
          have hs4 : Step tp t4 :=
            fillFields_step _ _ (fun fty v tpx rr tpx' hx => hrec _ _ _ _ _ _ hx) _ _ _ _ _ h4
          rw [h4] at h
          cases r4 with
          | error e => cases h; exact hs4
          | ok vs1 => cases h; exact hs4
      | vBool b => cases h; exact Step.rfl tp
      | vInt i => cases h; exact Step.rfl tp
      | vUint u => cases h; exact Step.rfl tp
      | vFloat b => cases h; exact Step.rfl tp
      | vComplex a b => cases h; exact Step.rfl tp
      | vString bs => cases h; exact Step.rfl tp
      | vNilSlice => cases h; exact Step.rfl tp
      | vSlice es => cases h; exact Step.rfl tp
      | vNilMap => cases h; exact Step.rfl tp
      | vMap es => cases h; exact Step.rfl tp
      | vNilPtr => cases h; exact Step.rfl tp
      | vPtr v => cases h; exact Step.rfl tp
      | vArray es => cases h; exact Step.rfl tp
      | vOpaque => cases h; exact Step.rfl tp
    · cases h
      exact Step.rfl tp

/-- `fillValue` preserves the step contract: the buffer is unchanged,
the cursor never moves backwards, the invariant is preserved. -/
theorem fillValue_step (intnF : RandIntn) (floatF : RandFloat) (env : List RType) :
    ∀ (fuel : Nat) (ty : RType) (cur : RValue) (cs : Bool) (d : Nat)
      (tp : TypeProvider) (r : Except Err RValue) (tp' : TypeProvider),
      fillValue intnF floatF env fuel ty cur cs d tp = some (r, tp') → Step tp tp' := by
  intro fuel
  induction fuel with
  | zero =>
    intro ty cur cs d tp r tp' h
    exact Option.noConfusion h
  | succ n ih =>
    intro ty cur cs d tp r tp' h
    cases cs with
    | false =>
      rw [fillValue_notCanSet] at h
      cases h
      exact Step.rfl tp
    | true =>
      by_cases hskip : floatF tp.seed tp.randCount < tp.skipFieldBias
      · rw [fillValue_skip intnF floatF env n ty cur d tp hskip] at h
        cases h
        exact step_bump tp
      · rw [fillValue_noskip intnF floatF env n ty cur d tp hskip] at h
        cases hres : resolveTy env (n + 1) ty with
        | none => rw [hres] at h; exact Option.noConfusion h
        | some ty1 =>
          rw [hres] at h
          dsimp only at h
          exact Step.trans (step_bump tp)
            (fillDispatch_step intnF floatF env n _
              (fun t v dd tpx rr tpx' hx => ih t v true dd tpx rr tpx' hx)
              ty1 cur d (bump tp) r tp' h)

/-!
Per-operation facts for the whole-object claims.
-/

theorem step_SetParamsSliceBounds (tp : TypeProvider) (mn mx : Int) :
    Step tp (SetParamsSliceBounds tp mn mx).2 := by
  unfold SetParamsSliceBounds
  split
  · exact Step.rfl tp
  · exact ⟨by rfl, le_rfl, fun h => h⟩

theorem step_SetParamsMapBounds (tp : TypeProvider) (mn mx : Int) :
    Step tp (SetParamsMapBounds tp mn mx).2 := by
  unfold SetParamsMapBounds
  split
  · exact Step.rfl tp
  · exact ⟨by rfl, le_rfl, fun h => h⟩

theorem step_SetParamsStringBounds (tp : TypeProvider) (mn mx : Int) :
    Step tp (SetParamsStringBounds tp mn mx).2 := by
  unfold SetParamsStringBounds
  split
  · exact Step.rfl tp
  · exact ⟨by rfl, le_rfl, fun h => h⟩

theorem step_SetParamsBiases (tp : TypeProvider) (m p s f : ℚ) :
    Step tp (SetParamsBiases tp m p s f).2 := by
  unfold SetParamsBiases
  split
  · exact Step.rfl tp
  · exact ⟨by rfl, le_rfl, fun h => h⟩

theorem step_SetParamsDepthLimit (tp : TypeProvider) (d : Int) :
    Step tp (SetParamsDepthLimit tp d).2 := by
  unfold SetParamsDepthLimit
  split
  · exact Step.rfl tp
  · exact ⟨by rfl, le_rfl, fun h => h⟩

theorem step_SetParamsFillUnexportedFields (tp : TypeProvider) (b : Bool) :
    Step tp (SetParamsFillUnexportedFields tp b).2 :=
  ⟨by rfl, le_rfl, fun h => h⟩

/-- One operation: every non-`Reset` operation satisfies the step
contract, and every operation (including `Reset`) keeps the buffer and
preserves the cursor invariant. -/
theorem applyOp_char (intnF : RandIntn) (floatF : RandFloat) (op : Op) (tp : TypeProvider) :
    (op ≠ Op.opReset → Step tp (applyOp intnF floatF op tp).2) ∧
    (applyOp intnF floatF op tp).2.data = tp.data ∧
    (Inv tp → Inv (applyOp intnF floatF op tp).2) := by
  cases op with
  | opGetByte =>
    exact ⟨fun _ => step_GetByte tp, (step_GetByte tp).1, (step_GetByte tp).2.2⟩
  | opGetBool =>
    exact ⟨fun _ => step_GetBool tp, (step_GetBool tp).1, (step_GetBool tp).2.2⟩
  | opGetUint8 =>
    exact ⟨fun _ => step_GetUint8 tp, (step_GetUint8 tp).1, (step_GetUint8 tp).2.2⟩
  | opGetInt8 =>
    exact ⟨fun _ => step_GetInt8 tp, (step_GetInt8 tp).1, (step_GetInt8 tp).2.2⟩
  | opGetUint16 =>
    exact ⟨fun _ => step_GetUint16 tp, (step_GetUint16 tp).1, (step_GetUint16 tp).2.2⟩
  | opGetInt16 =>
    exact ⟨fun _ => step_GetInt16 tp, (step_GetInt16 tp).1, (step_GetInt16 tp).2.2⟩
  | opGetUint32 =>
    exact ⟨fun _ => step_GetUint32 tp, (step_GetUint32 tp).1, (step_GetUint32 tp).2.2⟩
  | opGetInt32 =>
    exact ⟨fun _ => step_GetInt32 tp, (step_GetInt32 tp).1, (step_GetInt32 tp).2.2⟩
  | opGetUint64 =>
    exact ⟨fun _ => step_GetUint64 tp, (step_GetUint64 tp).1, (step_GetUint64 tp).2.2⟩
  | opGetInt64 =>
    exact ⟨fun _ => step_GetInt64 tp, (step_GetInt64 tp).1, (step_GetInt64 tp).2.2⟩
  | opGetUint =>
    exact ⟨fun _ => step_GetUint tp, (step_GetUint tp).1, (step_GetUint tp).2.2⟩
  | opGetInt =>
    exact ⟨fun _ => step_GetInt tp, (step_GetInt tp).1, (step_GetInt tp).2.2⟩
  | opGetFloat32 =>
    exact ⟨fun _ => step_GetFloat32 tp, (step_GetFloat32 tp).1, (step_GetFloat32 tp).2.2⟩
  | opGetFloat64 =>
    exact ⟨fun _ => step_GetFloat64 tp, (step_GetFloat64 tp).1, (step_GetFloat64 tp).2.2⟩
  | opGetNBytes n =>
    exact ⟨fun _ => step_GetNBytes tp n, (step_GetNBytes tp n).1, (step_GetNBytes tp n).2.2⟩
  | opGetFixedString n =>
    exact ⟨fun _ => step_GetNBytes tp n, (step_GetNBytes tp n).1, (step_GetNBytes tp n).2.2⟩
  | opGetBytes =>
    exact ⟨fun _ => step_GetBytes intnF tp, (step_GetBytes intnF tp).1,
      (step_GetBytes intnF tp).2.2⟩
  | opGetString =>
    exact ⟨fun _ => step_GetString intnF tp, (step_GetString intnF tp).1,
      (step_GetString intnF tp).2.2⟩
  | opReset =>
    exact ⟨fun hne => absurd rfl hne, (reset_inv tp).1, fun _ => (reset_inv tp).2⟩
  | opFill env fuel ty cur canSet =>
    dsimp only [applyOp]
    cases hf : Fill intnF floatF env fuel ty cur canSet tp with
    | none =>
      exact ⟨fun _ => Step.rfl tp, by rfl, fun h => h⟩
    | some q =>
      rcases q with ⟨rr, tp1⟩
      have hs := fillValue_step intnF floatF env fuel ty cur canSet 0 tp rr tp1 hf
      exact ⟨fun _ => hs, hs.1, hs.2.2⟩
  | opSetSliceBounds mn mx =>
    exact ⟨fun _ => step_SetParamsSliceBounds tp mn mx,
      (step_SetParamsSliceBounds tp mn mx).1, (step_SetParamsSliceBounds tp mn mx).2.2⟩
  | opSetMapBounds mn mx =>
    exact ⟨fun _ => step_SetParamsMapBounds tp mn mx,
      (step_SetParamsMapBounds tp mn mx).1, (step_SetParamsMapBounds tp mn mx).2.2⟩
  | opSetStringBounds mn mx =>
    exact ⟨fun _ => step_SetParamsStringBounds tp mn mx,
      (step_SetParamsStringBounds tp mn mx).1, (step_SetParamsStringBounds tp mn mx).2.2⟩
  | opSetBiases m p s f =>
    exact ⟨fun _ => step_SetParamsBiases tp m p s f,
      (step_SetParamsBiases tp m p s f).1, (step_SetParamsBiases tp m p s f).2.2⟩
  | opSetDepthLimit d =>
    exact ⟨fun _ => step_SetParamsDepthLimit tp d,
      (step_SetParamsDepthLimit tp d).1, (step_SetParamsDepthLimit tp d).2.2⟩
  | opSetFillUnexportedFields b =>
    exact ⟨fun _ => step_SetParamsFillUnexportedFields tp b,
      (step_SetParamsFillUnexportedFields tp b).1,
      (step_SetParamsFillUnexportedFields tp b).2.2⟩

/-!
C8 — cursor invariant and monotonicity over whole call sequences.
-/

/-- C8: starting from any state satisfying the cursor invariant
`0 ≤ position ≤ len(buffer)`, running any sequence of operations keeps
the invariant, and when the sequence contains no `Reset` the cursor
never decreases (a `Reset` is the only operation allowed to rewind). -/
theorem c8_cursor_invariant (intnF : RandIntn) (floatF : RandFloat) :
    ∀ (ops : List Op) (tp : TypeProvider), Inv tp →
      Inv (runOps intnF floatF ops tp).2 ∧
      ((∀ op ∈ ops, op ≠ Op.opReset) →
        tp.position ≤ (runOps intnF floatF ops tp).2.position) := by
  intro ops
  induction ops with
  | nil =>
    intro tp h
    exact ⟨h, fun _ => le_rfl⟩
  | cons op ops2 ih =>
    intro tp h
    have hop := applyOp_char intnF floatF op tp
    have hInv1 : Inv (applyOp intnF floatF op tp).2 := hop.2.2 h
    have hrest := ih (applyOp intnF floatF op tp).2 hInv1
    refine ⟨hrest.1, fun hall => ?_⟩
    have h1 : tp.position ≤ (applyOp intnF floatF op tp).2.position :=
      (hop.1 (hall op (List.mem_cons_self op ops2))).2.1
    exact h1.trans (hrest.2 (fun o ho => hall o (List.mem_cons_of_mem op ho)))

/-- Witness for C8 at a concrete input. -/
theorem c8_cursor_invariant_witness :
    Inv (runOps intnZero floatZero [Op.opGetByte, Op.opGetNBytes 2] zeroTP8).2 ∧
    ((∀ op ∈ [Op.opGetByte, Op.opGetNBytes 2], op ≠ Op.opReset) →
      zeroTP8.position ≤
        (runOps intnZero floatZero [Op.opGetByte, Op.opGetNBytes 2] zeroTP8).2.position) :=
  c8_cursor_invariant intnZero floatZero [Op.opGetByte, Op.opGetNBytes 2] zeroTP8
    ⟨by decide, by decide⟩

/-!
C9 — a failed primitive read leaves the cursor where it was.
-/

theorem getNBytes_error_snd (tp : TypeProvider) (n : Int) (e : Err)
    (h : (GetNBytes tp n).1 = .error e) : (GetNBytes tp n).2 = tp := by
  unfold GetNBytes at h ⊢
  cases hv : validateBounds tp n with
  | some e2 => rfl
  | none => rw [hv] at h; simp at h

theorem getByte_error_snd (tp : TypeProvider) (e : Err)
    (h : (GetByte tp).1 = .error e) : (GetByte tp).2 = tp := by
  unfold GetByte at h ⊢
  cases hv : validateBounds tp 1 with
  | some e2 => rfl
  | none => rw [hv] at h; simp at h

theorem getBool_error_snd (tp : TypeProvider) (e : Err)
    (h : (GetBool tp).1 = .error e) : (GetBool tp).2 = tp := by
  unfold GetBool at *
  cases hb : GetByte tp with
  | mk rb tb =>
    cases rb with
    | ok b => rw [hb] at h; simp at h
    | error e2 =>
      have h3 := getByte_error_snd tp e2 (by rw [hb])
      rw [hb] at h3
      exact h3

theorem getInt8_error_snd (tp : TypeProvider) (e : Err)
    (h : (GetInt8 tp).1 = .error e) : (GetInt8 tp).2 = tp := by
  unfold GetInt8 at *
  cases hb : GetByte tp with
  | mk rb tb =>
    cases rb with
    | ok b => rw [hb] at h; simp at h
    | error e2 =>
      have h3 := getByte_error_snd tp e2 (by rw [hb])
      rw [hb] at h3
      exact h3

theorem getUint16_error_snd (tp : TypeProvider) (e : Err)
    (h : (GetUint16 tp).1 = .error e) : (GetUint16 tp).2 = tp := by
  unfold GetUint16 at *
  cases hb : GetNBytes tp 2 with
  | mk rb tb =>
    cases rb with
    | ok bs => rw [hb] at h; simp at h
    | error e2 =>
      have h3 := getNBytes_error_snd tp 2 e2 (by rw [hb])
      rw [hb] at h3
      exact h3

theorem getInt16_error_snd (tp : TypeProvider) (e : Err)
    (h : (GetInt16 tp).1 = .error e) : (GetInt16 tp).2 = tp := by
  unfold GetInt16 at *
  cases hb : GetUint16 tp with
  | mk rb tb =>
    cases rb with
    | ok u => rw [hb] at h; simp at h
    | error e2 =>
      have h3 := getUint16_error_snd tp e2 (by rw [hb])
      rw [hb] at h3
      exact h3

theorem getUint32_error_snd (tp : TypeProvider) (e : Err)
    (h : (GetUint32 tp).1 = .error e) : (GetUint32 tp).2 = tp := by
  unfold GetUint32 at *
  cases hb : GetNBytes tp 4 with
  | mk rb tb =>
    cases rb with
    | ok bs => rw [hb] at h; simp at h
    | error e2 =>
      have h3 := getNBytes_error_snd tp 4 e2 (by rw [hb])
      rw [hb] at h3
      exact h3

theorem getInt32_error_snd (tp : TypeProvider) (e : Err)
    (h : (GetInt32 tp).1 = .error e) : (GetInt32 tp).2 = tp := by
  unfold GetInt32 at *
  cases hb : GetUint32 tp with
  | mk rb tb =>
    cases rb with
    | ok u => rw [hb] at h; simp at h
    | error e2 =>
      have h3 := getUint32_error_snd tp e2 (by rw [hb])
      rw [hb] at h3
      exact h3

theorem getUint64_error_snd (tp : TypeProvider) (e : Err)
    (h : (GetUint64 tp).1 = .error e) : (GetUint64 tp).2 = tp := by
  unfold GetUint64 at *
  cases hb : GetNBytes tp 8 with
  | mk rb tb =>
    cases rb with
    | ok bs => rw [hb] at h; simp at h
    | error e2 =>
      have h3 := getNBytes_error_snd tp 8 e2 (by rw [hb])
      rw [hb] at h3
      exact h3

theorem getInt64_error_snd (tp : TypeProvider) (e : Err)
    (h : (GetInt64 tp).1 = .error e) : (GetInt64 tp).2 = tp := by
  unfold GetInt64 at *
  cases hb : GetUint64 tp with
  | mk rb tb =>
    cases rb with
    | ok u => rw [hb] at h; simp at h
    | error e2 =>
      have h3 := getUint64_error_snd tp e2 (by rw [hb])
      rw [hb] at h3
      exact h3

theorem getIntOp_error_snd (tp : TypeProvider) (e : Err)
    (h : (GetInt tp).1 = .error e) : (GetInt tp).2 = tp := by
  unfold GetInt at *
  cases hb : GetUint64 tp with
  | mk rb tb =>
    cases rb with
    | ok u => rw [hb] at h; simp at h
    | error e2 =>
      have h3 := getUint64_error_snd tp e2 (by rw [hb])
      rw [hb] at h3
      exact h3

theorem getBytes_error_pos (intnF : RandIntn) (tp : TypeProvider) (e : Err)
    (h : (GetBytes intnF tp).1 = .error e) :
    (GetBytes intnF tp).2.position = tp.position := by
  unfold GetBytes getRandomSize at h ⊢
  rw [getNBytes_error_snd _ _ _ h]
  rfl

theorem getString_error_pos (intnF : RandIntn) (tp : TypeProvider) (e : Err)
    (h : (GetString intnF tp).1 = .error e) :
    (GetString intnF tp).2.position = tp.position := by
  unfold GetString getRandomSize at h ⊢
  rw [getNBytes_error_snd _ _ _ h]
  rfl

/-- C9: every primitive read operation (`GetNBytes`, `GetByte` and the
accessors built on them) that returns an error leaves the cursor
position unchanged: the cursor is advanced only after the bounds check
succeeds, so a failed read can be retried or followed by a smaller read
from the same position. -/
theorem c9_error_preserves_position (intnF : RandIntn) (floatF : RandFloat)
    (op : Op) (tp : TypeProvider)
    (hread : op.isPrimRead = true)
    (herr : ((applyOp intnF floatF op tp).1).hasError = true) :
    (applyOp intnF floatF op tp).2.position = tp.position := by
  cases op with
  | opGetByte =>
    dsimp only [applyOp, OpResult.hasError] at herr ⊢
    cases hb : (GetByte tp).1 with
    | ok b => rw [hb] at herr; simp [OpResult.hasError] at herr
    | error e => rw [getByte_error_snd tp e hb]
  | opGetBool =>
    dsimp only [applyOp, OpResult.hasError] at herr ⊢
    cases hb : (GetBool tp).1 with
    | ok b => rw [hb] at herr; simp [OpResult.hasError] at herr
    | error e => rw [getBool_error_snd tp e hb]
  | opGetUint8 =>
    dsimp only [applyOp, OpResult.hasError] at herr ⊢
    unfold GetUint8 at herr ⊢
    cases hb : (GetByte tp).1 with
    | ok b => rw [hb] at herr; simp [OpResult.hasError] at herr
    | error e => rw [getByte_error_snd tp e hb]
  | opGetInt8 =>
    dsimp only [applyOp, OpResult.hasError] at herr ⊢
    cases hb : (GetInt8 tp).1 with
    | ok b => rw [hb] at herr; simp [OpResult.hasError] at herr
    | error e => rw [getInt8_error_snd tp e hb]
  | opGetUint16 =>
    dsimp only [applyOp, OpResult.hasError] at herr ⊢
    cases hb : (GetUint16 tp).1 with
    | ok b => rw [hb] at herr; simp [OpResult.hasError] at herr
    | error e => rw [getUint16_error_snd tp e hb]
  | opGetInt16 =>
    dsimp only [applyOp, OpResult.hasError] at herr ⊢
    cases hb : (GetInt16 tp).1 with
    | ok b => rw [hb] at herr; simp [OpResult.hasError] at herr
    | error e => rw [getInt16_error_snd tp e hb]
  | opGetUint32 =>
    dsimp only [applyOp, OpResult.hasError] at herr ⊢
    cases hb : (GetUint32 tp).1 with
    | ok b => rw [hb] at herr; simp [OpResult.hasError] at herr
    | error e => rw [getUint32_error_snd tp e hb]
  | opGetInt32 =>
    dsimp only [applyOp, OpResult.hasError] at herr ⊢
    cases hb : (GetInt32 tp).1 with
    | ok b => rw [hb] at herr; simp [OpResult.hasError] at herr
    | error e => rw [getInt32_error_snd tp e hb]
  | opGetUint64 =>
    dsimp only [applyOp, OpResult.hasError] at herr ⊢
    cases hb : (GetUint64 tp).1 with
    | ok b => rw [hb] at herr; simp [OpResult.hasError] at herr
    | error e => rw [getUint64_error_snd tp e hb]
  | opGetInt64 =>
    dsimp only [applyOp, OpResult.hasError] at herr ⊢
    cases hb : (GetInt64 tp).1 with
    | ok b => rw [hb] at herr; simp [OpResult.hasError] at herr
    | error e => rw [getInt64_error_snd tp e hb]
  | opGetUint =>
    dsimp only [applyOp, OpResult.hasError] at herr ⊢
    unfold GetUint at herr ⊢
    cases hb : (GetUint64 tp).1 with
    | ok b => rw [hb] at herr; simp [OpResult.hasError] at herr
    | error e => rw [getUint64_error_snd tp e hb]
  | opGetInt =>
    dsimp only [applyOp, OpResult.hasError] at herr ⊢
    cases hb : (GetInt tp).1 with
    | ok b => rw [hb] at herr; simp [OpResult.hasError] at herr
    | error e => rw [getIntOp_error_snd tp e hb]
  | opGetFloat32 =>
    dsimp only [applyOp, OpResult.hasError] at herr ⊢
    unfold GetFloat32 at herr ⊢
    cases hb : (GetUint32 tp).1 with
    | ok b => rw [hb] at herr; simp [OpResult.hasError] at herr
    | error e => rw [getUint32_error_snd tp e hb]
  | opGetFloat64 =>
    dsimp only [applyOp, OpResult.hasError] at herr ⊢
    unfold GetFloat64 at herr ⊢
    cases hb : (GetUint64 tp).1 with
    | ok b => rw [hb] at herr; simp [OpResult.hasError] at herr
    | error e => rw [getUint64_error_snd tp e hb]
  | opGetNBytes n =>
    dsimp only [applyOp, OpResult.hasError] at herr ⊢
    cases hb : (GetNBytes tp n).1 with
    | ok b => rw [hb] at herr; simp [OpResult.hasError] at herr
    | error e => rw [getNBytes_error_snd tp n e hb]
  | opGetFixedString n =>
    dsimp only [applyOp, OpResult.hasError] at herr ⊢
    unfold GetFixedString at herr ⊢
    cases hb : (GetNBytes tp n).1 with
    | ok b => rw [hb] at herr; simp [OpResult.hasError] at herr
    | error e => rw [getNBytes_error_snd tp n e hb]
  | opGetBytes =>
    dsimp only [applyOp, OpResult.hasError] at herr ⊢
    cases hb : (GetBytes intnF tp).1 with
    | ok b => rw [hb] at herr; simp [OpResult.hasError] at herr
    | error e => exact getBytes_error_pos intnF tp e hb
  | opGetString =>
    dsimp only [applyOp, OpResult.hasError] at herr ⊢
    cases hb : (GetString intnF tp).1 with
    | ok b => rw [hb] at herr; simp [OpResult.hasError] at herr
    | error e => exact getString_error_pos intnF tp e hb
  | opReset => simp [Op.isPrimRead] at hread
  | opFill env fuel ty cur canSet => simp [Op.isPrimRead] at hread
  | opSetSliceBounds mn mx => simp [Op.isPrimRead] at hread
  | opSetMapBounds mn mx => simp [Op.isPrimRead] at hread
  | opSetStringBounds mn mx => simp [Op.isPrimRead] at hread
  | opSetBiases m p s f => simp [Op.isPrimRead] at hread
  | opSetDepthLimit d => simp [Op.isPrimRead] at hread
  | opSetFillUnexportedFields b => simp [Op.isPrimRead] at hread

/-- Witness for C9 at a concrete input: a 16-byte read from the
provider over 8 bytes (cursor at 8) fails with end of stream and the
cursor stays at 8. -/
theorem c9_error_preserves_position_witness :
    (applyOp intnZero floatZero (Op.opGetNBytes 16) zeroTP8).2.position =
      zeroTP8.position :=
  c9_error_preserves_position intnZero floatZero (Op.opGetNBytes 16) zeroTP8
    (by decide) (by decide)

/-!
C2 — exhaustion and zero-length reads.
-/

/-- C2: for a provider whose cursor is in bounds and every requested
length `n ≥ 0`, `GetNBytes(n)` fails (with the end-of-stream error)
exactly when fewer than `n` bytes remain, and likewise for the
fixed-width accessors of widths 1, 2, 4 and 8 built on it; a request of
length 0 always succeeds and returns the empty result, leaving the
provider unchanged — also when the cursor sits exactly at the end of
the stream. -/
theorem c2_exhaustion (tp : TypeProvider) (n : Int)
    (h0 : 0 ≤ tp.position) (h1 : tp.position ≤ (tp.data.length : Int)) (hn : 0 ≤ n) :
    (((GetNBytes tp n).1 = .error .endOfStream) ↔
      (tp.data.length : Int) - tp.position < n) ∧
    GetNBytes tp 0 = (.ok [], tp) ∧
    (((GetByte tp).1 = .error .endOfStream) ↔
      (tp.data.length : Int) - tp.position < 1) ∧
    (((GetUint16 tp).1 = .error .endOfStream) ↔
      (tp.data.length : Int) - tp.position < 2) ∧
    (((GetUint32 tp).1 = .error .endOfStream) ↔
      (tp.data.length : Int) - tp.position < 4) ∧
    (((GetUint64 tp).1 = .error .endOfStream) ↔
      (tp.data.length : Int) - tp.position < 8) := by
  refine ⟨?_, ?_, ?_, ?_, ?_, ?_⟩
  · rw [getNBytes_char tp n h0 h1 hn]
    by_cases h : (tp.data.length : Int) - tp.position < n <;> simp [h]
  · rw [getNBytes_char tp 0 h0 h1 le_rfl, if_neg (by omega)]
    simp
  · unfold GetByte
    rw [validateBounds_char tp 1 h0 h1 (by omega)]
    by_cases h : (tp.data.length : Int) - tp.position < 1 <;> simp [h]
  · unfold GetUint16
    rw [getNBytes_char tp 2 h0 h1 (by omega)]
    by_cases h : (tp.data.length : Int) - tp.position < 2 <;> simp [h]
  · unfold GetUint32
    rw [getNBytes_char tp 4 h0 h1 (by omega)]
    by_cases h : (tp.data.length : Int) - tp.position < 4 <;> simp [h]
  · unfold GetUint64
    rw [getNBytes_char tp 8 h0 h1 (by omega)]
    by_cases h : (tp.data.length : Int) - tp.position < 8 <;> simp [h]

/-- Witness for C2 at a concrete input: a two-byte buffer with the
cursor at one byte left; a two-byte read fails with end of stream, a
zero-length read succeeds empty. -/
theorem c2_exhaustion_witness :
    (((GetNBytes { emptyTP with data := [7, 7], position := 1 } 2).1 =
        .error .endOfStream) ↔
      (([7, 7] : List Nat).length : Int) - 1 < 2) ∧
    GetNBytes { emptyTP with data := [7, 7], position := 1 } 0 =
      (.ok [], { emptyTP with data := [7, 7], position := 1 }) := by
  have h := c2_exhaustion { emptyTP with data := [7, 7], position := 1 } 2
    (by decide) (by decide) (by decide)
  exact ⟨h.1, h.2.1⟩

/-!
C5 — `getRandomSize` bounds; the claim's no-generator-consultation part
is refuted and amended.
-/

/-- C5 counterexample: `getRandomSize(5, 5)` does return the constant
5, but it advances the generator (the call counter grows), because
`rand.Intn` always draws from its source, also for argument 1 — the
claim asserts the generator is not consulted when `min == max`. -/
theorem c5_counterexample :
    (getRandomSize intnZero emptyTP 5 5).1 = 5 ∧
    ¬ (getRandomSize intnZero emptyTP 5 5).2.randCount = emptyTP.randCount := by
  exact ⟨rfl, by decide⟩

/-- C5 (amended): for `min ≤ max` and any generator obeying the
`Intn` contract, `getRandomSize(min, max)` lies in `[min, max]`
inclusive; when `min = max` it returns that constant — but the
generator is still consulted: the call consumes exactly one draw. -/
theorem c5_random_size_bounds (intnF : RandIntn) (tp : TypeProvider) (mn mx : Int)
    (hle : mn ≤ mx)
    (hI : ∀ s k n, 0 < n → 0 ≤ intnF s k n ∧ intnF s k n < n) :
    (mn ≤ (getRandomSize intnF tp mn mx).1 ∧ (getRandomSize intnF tp mn mx).1 ≤ mx) ∧
    (mn = mx → (getRandomSize intnF tp mn mx).1 = mn) ∧
    (getRandomSize intnF tp mn mx).2.randCount = tp.randCount + 1 := by
  have h := hI tp.seed tp.randCount ((mx - mn) + 1) (by omega)
  refine ⟨⟨?_, ?_⟩, ?_, rfl⟩
  · simp only [getRandomSize]; omega
  · simp only [getRandomSize]; omega
  · intro he; simp only [getRandomSize]; omega

/-- Witness for C5 (amended) at a concrete input. -/
theorem c5_random_size_bounds_witness :
    (3 ≤ (getRandomSize intnZero emptyTP 3 9).1 ∧
      (getRandomSize intnZero emptyTP 3 9).1 ≤ 9) ∧
    (3 = (9 : Int) → (getRandomSize intnZero emptyTP 3 9).1 = 3) ∧
    (getRandomSize intnZero emptyTP 3 9).2.randCount = emptyTP.randCount + 1 :=
  c5_random_size_bounds intnZero emptyTP 3 9 (by decide)
    (fun _ _ n hn => ⟨le_rfl, hn⟩)

/-!
C6 — the canonical descending-byte regression fixture.
-/

set_option maxRecDepth 8000 in
/-- C6: over the 256-byte descending buffer, a fresh provider (whose
cursor sits at offset 8, after the seed was consumed) yields, for one
byte, one int16 and one uint32 read in sequence, exactly the big-endian
reinterpretations of the consecutive windows of widths 1, 2 and 4
starting at that cursor position, ending at offset 15. -/
theorem c6_descending_fixture :
    ((NewTypeProvider descBuf).map (fun tp0 => tp0.position) = .ok 8) ∧
    ((NewTypeProvider descBuf).map (fun tp0 =>
        let r1 := GetByte tp0
        let r2 := GetInt16 r1.2
        let r3 := GetUint32 r2.2
        (r1.1, r2.1, r3.1, r3.2.position)) =
      .ok (.ok (beUint ((descBuf.drop 8).take 1)),
           .ok (toSigned 16 (beUint ((descBuf.drop 9).take 2))),
           .ok (beUint ((descBuf.drop 11).take 4)), 15)) := by
  exact ⟨rfl, rfl⟩

/-!
C10 — a non-settable fill target is not an error and is a no-op.
-/

/-- C10: calling `Fill` on a target that is not settable (a plain value
or nil interface rather than a pointer to a variable) succeeds with no
error, reads nothing, consumes no generator draw and leaves both the
value and the whole provider state untouched — the Go `CanSet` check
returns before even the skip-bias draw. -/
theorem c10_fill_non_settable (intnF : RandIntn) (floatF : RandFloat)
    (env : List RType) (fuel : Nat) (ty : RType) (cur : RValue) (tp : TypeProvider)
    (hfuel : 0 < fuel) :
    Fill intnF floatF env fuel ty cur false tp = some (.ok cur, tp) := by
  cases fuel with
  | zero => omega
  | succ n => rfl

/-- Witness for C10 at a concrete input. -/
theorem c10_fill_non_settable_witness :
    Fill intnZero floatZero [] 1 .bool .vOpaque false emptyTP =
      some (.ok .vOpaque, emptyTP) :=
  c10_fill_non_settable intnZero floatZero [] 1 .bool .vOpaque emptyTP (by decide)

/-!
C4 — the skip-bias draw; the claim's restriction to record fields is
refuted and amended.
-/

/-- Buffer and providers for the C4 counterexample: bytes 0..15, cursor
at 8; one provider has skip bias 1, the other the default 0. -/
def c4TPskip : TypeProvider :=
  { initialProvider (List.range 16) with position := 8, skipFieldBias := 1 }

/-- The same provider with the default skip bias 0. -/
def c4TPnoskip : TypeProvider :=
  { initialProvider (List.range 16) with position := 8 }

/-- C4 counterexample: a top-level fill target (a plain `uint8`, not a
field of any composite record) is left at its default value purely
because of skip-bias: with skip bias 1 the fill returns the default and
reads nothing, while the identical provider with skip bias 0 populates
the value from the buffer. -/
theorem c4_counterexample :
    (fillValue intnZero floatZero [] 2 .uint8 (.vUint 0) true 0 c4TPskip =
      some (.ok (.vUint 0), bump c4TPskip)) ∧
    (fillValue intnZero floatZero [] 2 .uint8 (.vUint 0) true 0 c4TPnoskip =
      some (.ok (.vUint 8), { bump c4TPnoskip with position := 9 })) := by
  exact ⟨rfl, rfl⟩

/-- C4 (amended): the skip-bias test is applied exactly once per
`fillValue` invocation on any settable value — top-level targets, slice
elements, map keys and values, pointer targets and array elements just
like struct fields — and when it triggers, the value is left untouched
and exactly one generator draw is consumed, with no bytes read. -/
theorem c4_skip_applies_to_every_value (intnF : RandIntn) (floatF : RandFloat)
    (env : List RType) (fuel : Nat) (ty : RType) (cur : RValue)
    (d : Nat) (tp : TypeProvider)
    (hskip : floatF tp.seed tp.randCount < tp.skipFieldBias) :
    fillValue intnF floatF env (fuel + 1) ty cur true d tp =
      some (.ok cur, bump tp) := by
  simp [fillValue, getRandomBool, hskip]

/-- Witness for C4 (amended) at a concrete input. -/
theorem c4_skip_applies_to_every_value_witness :
    fillValue intnZero floatZero [] 2 .uint8 (.vUint 0) true 0 c4TPskip =
      some (.ok (.vUint 0), bump c4TPskip) :=
  c4_skip_applies_to_every_value intnZero floatZero [] 1 .uint8 (.vUint 0) 0
    c4TPskip (by decide)

/-!
C7 — depth semantics: a struct is populated exactly when the depth
limit is 0 or `currentDepth < depthLimit`, fields recurse at
`currentDepth + 1`, and slice elements, map keys and values, pointer
targets and array elements recurse at the same depth.
-/

/-- C7: a composite record is populated if and only if the depth limit
is 0 (unlimited) or `currentDepth < depthLimit` — otherwise it is left
entirely at default values (only the skip draw is consumed) — each
populated field being recursed into at `currentDepth + 1`, while
recursion into slice elements, map keys and values, pointer targets and
fixed-size array elements keeps the same depth.  Stated over the
embedding: the blocked case returns the value unchanged; the open case
and the collection branches satisfy the definitional equations showing
the depth each recursive `fillValue` call receives. -/
theorem c7_depth_semantics (intnF : RandIntn) (floatF : RandFloat) :
    (∀ (env : List RType) (fuel : Nat) (flds : List (Bool × RType)) (cur : RValue)
       (d : Nat) (tp : TypeProvider),
       tp.depthLimit ≠ 0 → tp.depthLimit ≤ (d : Int) →
       fillValue intnF floatF env (fuel + 1) (.strukt flds) cur true d tp =
         some (.ok cur, bump tp)) ∧
    (∀ (env : List RType) (fuel : Nat) (flds : List (Bool × RType)) (vs : List RValue)
       (d : Nat) (tp : TypeProvider),
       ¬ (floatF tp.seed tp.randCount < tp.skipFieldBias) →
       (tp.depthLimit = 0 ∨ (d : Int) < tp.depthLimit) →
       fillValue intnF floatF env (fuel + 1) (.strukt flds) (.vStruct vs) true d tp =
         match fillFields tp.fillUnexportedFields
             (fun fty v tpx => fillValue intnF floatF env fuel fty v true (d + 1) tpx)
             flds vs (bump tp) with
         | none => none
         | some (.error e, tp1) => some (.error e, tp1)
         | some (.ok vs1, tp1) => some (.ok (.vStruct vs1), tp1)) ∧
    (∀ (env : List RType) (fuel : Nat) (elem ety : RType) (cur : RValue) (z : RValue)
       (d : Nat) (tp : TypeProvider),
       ¬ (floatF tp.seed tp.randCount < tp.skipFieldBias) →
       ¬ (floatF tp.seed (tp.randCount + 1) < tp.sliceNilBias) →
       resolveTy env (fuel + 1) elem = some ety →
       isByteKind ety = false →
       zeroVal env fuel ety = some z →
       fillValue intnF floatF env (fuel + 1) (.slice elem) cur true d tp =
         match fillSeq (fun v tpx => fillValue intnF floatF env fuel ety v true d tpx)
             (List.replicate (getRandomSize intnF (bump (bump tp))
               (bump (bump tp)).sliceMinSize (bump (bump tp)).sliceMaxSize).1.toNat z)
             (bump (bump (bump tp))) with
         | none => none
         | some (.error e, tp3) => some (.error e, tp3)
         | some (.ok vs, tp3) => some (.ok (.vSlice vs), tp3)) ∧
    (∀ (env : List RType) (fuel : Nat) (kty vty : RType) (cur : RValue) (zk zv : RValue)
       (d : Nat) (tp : TypeProvider),
       ¬ (floatF tp.seed tp.randCount < tp.skipFieldBias) →
       ¬ (floatF tp.seed (tp.randCount + 1) < tp.mapNilBias) →
       zeroVal env fuel kty = some zk →
       zeroVal env fuel vty = some zv →
       fillValue intnF floatF env (fuel + 1) (.map kty vty) cur true d tp =
         match fillMapN
             (fun tpx => fillValue intnF floatF env fuel kty zk true d tpx)
             (fun tpx => fillValue intnF floatF env fuel vty zv true d tpx)
             (getRandomSize intnF (bump (bump tp)) (bump (bump tp)).mapMinSize
               (bump (bump tp)).mapMaxSize).1.toNat []
             (bump (bump (bump tp))) with
         | none => none
         | some (.error e, tp3) => some (.error e, tp3)
         | some (.ok entries, tp3) => some (.ok (.vMap entries), tp3)) ∧
    (∀ (env : List RType) (fuel : Nat) (elem : RType) (cur : RValue) (z : RValue)
       (d : Nat) (tp : TypeProvider),
       ¬ (floatF tp.seed tp.randCount < tp.skipFieldBias) →
       ¬ (floatF tp.seed (tp.randCount + 1) < tp.ptrNilBias) →
       zeroVal env fuel elem = some z →
       fillValue intnF floatF env (fuel + 1) (.ptr elem) cur true d tp =
         match fillValue intnF floatF env fuel elem z true d (bump (bump tp)) with
         | none => none
         | some (.error e, tp2) => some (.error e, tp2)
         | some (.ok v1, tp2) => some (.ok (.vPtr v1), tp2)) ∧
    (∀ (env : List RType) (fuel : Nat) (n : Nat) (elem : RType) (vs : List RValue)
       (d : Nat) (tp : TypeProvider),
       ¬ (floatF tp.seed tp.randCount < tp.skipFieldBias) →
       fillValue intnF floatF env (fuel + 1) (.array n elem) (.vArray vs) true d tp =
         match fillSeq (fun v tpx => fillValue intnF floatF env fuel elem v true d tpx)
             vs (bump tp) with
         | none => none
         | some (.error e, tp1) => some (.error e, tp1)
         | some (.ok vs1, tp1) => some (.ok (.vArray vs1), tp1)) := by
  refine ⟨?_, ?_, ?_, ?_, ?_, ?_⟩
  · -- blocked struct: entirely default, whether or not the skip draw fires
    intro env fuel flds cur d tp h1 h2
    by_cases hskip : floatF tp.seed tp.randCount < tp.skipFieldBias
    · exact fillValue_skip intnF floatF env fuel _ cur d tp hskip
    · rw [fillValue_noskip intnF floatF env fuel _ cur d tp hskip]
      have hr : resolveTy env (fuel + 1) (.strukt flds) = some (.strukt flds) := rfl
      rw [hr]
      dsimp only [fillDispatch]
      split
      · next hC =>
        have hC2 : tp.depthLimit = 0 ∨ (d : Int) < tp.depthLimit := hC
        exact absurd hC2 (by omega)
      · rfl
  · -- open struct: fields at depth d + 1
    intro env fuel flds vs d tp hns hC
    rw [fillValue_noskip intnF floatF env fuel _ _ d tp hns]
    have hr : resolveTy env (fuel + 1) (.strukt flds) = some (.strukt flds) := rfl
    rw [hr]
    dsimp only [fillDispatch]
    split
    · rfl
    · next hCn =>
      have hC2 : ¬ (tp.depthLimit = 0 ∨ (d : Int) < tp.depthLimit) := hCn
      exact absurd hC hC2
  · -- slice elements at the same depth d
    intro env fuel elem ety cur z d tp hns hnil hres hbk hz
    rw [fillValue_noskip intnF floatF env fuel _ cur d tp hns]
    have hr : resolveTy env (fuel + 1) (.slice elem) = some (.slice elem) := rfl
    rw [hr]
    dsimp only [fillDispatch]
    split
    · next hC =>
      have hC2 : decide (floatF tp.seed (tp.randCount + 1) < tp.sliceNilBias) = true := hC
      exact absurd (of_decide_eq_true hC2) hnil
    · rw [hres]
      dsimp only
      split
      · next hC =>
        have hC2 : isByteKind ety = true := hC
        rw [hbk] at hC2
        exact Bool.noConfusion hC2
      · rw [hz]
        exact rfl
  · -- map keys and values at the same depth d
    intro env fuel kty vty cur zk zv d tp hns hnil hzk hzv
    rw [fillValue_noskip intnF floatF env fuel _ cur d tp hns]
    have hr : resolveTy env (fuel + 1) (.map kty vty) = some (.map kty vty) := rfl
    rw [hr]
    dsimp only [fillDispatch]
    split
    · next hC =>
      have hC2 : decide (floatF tp.seed (tp.randCount + 1) < tp.mapNilBias) = true := hC
      exact absurd (of_decide_eq_true hC2) hnil
    · rw [hzk, hzv]
      exact rfl
  · -- pointer target at the same depth d
    intro env fuel elem cur z d tp hns hnil hz
    rw [fillValue_noskip intnF floatF env fuel _ cur d tp hns]
    have hr : resolveTy env (fuel + 1) (.ptr elem) = some (.ptr elem) := rfl
    rw [hr]
    dsimp only [fillDispatch]
    split
    · next hC =>
      have hC2 : decide (floatF tp.seed (tp.randCount + 1) < tp.ptrNilBias) = true := hC
      exact absurd (of_decide_eq_true hC2) hnil
    · rw [hz]
      exact rfl
  · -- array elements at the same depth d
    intro env fuel n elem vs d tp hns
    rw [fillValue_noskip intnF floatF env fuel _ _ d tp hns]
    have hr : resolveTy env (fuel + 1) (.array n elem) = some (.array n elem) := rfl
    rw [hr]
    exact rfl

/-- A provider for the C7 witness: 16 ascending bytes, cursor at 8,
all nil biases zero so that collections are populated. -/
def c7TP : TypeProvider :=
  { initialProvider (List.range 16) with
    position := 8
    sliceNilBias := 0
    mapNilBias := 0
    ptrNilBias := 0 }

/-- The same provider with depth limit 1. -/
def c7TPd1 : TypeProvider := { c7TP with depthLimit := 1 }

/-- Witness for C7 at concrete inputs: a struct blocked by the depth
limit stays at its default; an open struct, a slice, a map, a pointer
and an array all reduce as the equations state. -/
theorem c7_depth_semantics_witness :
    (fillValue intnZero floatZero [] 1 (.strukt []) .vOpaque true 1 c7TPd1 =
      some (.ok .vOpaque, bump c7TPd1)) ∧
    (fillValue intnZero floatZero [] 1 (.strukt []) (.vStruct []) true 0 c7TP =
      some (.ok (.vStruct []), bump c7TP)) ∧
    (fillValue intnZero floatZero [] 2 (.slice .bool) .vNilSlice true 0 c7TP =
      some (.ok (.vSlice []), bump (bump (bump c7TP)))) ∧
    (fillValue intnZero floatZero [] 2 (.map .bool .bool) .vNilMap true 0 c7TP =
      some (.ok (.vMap []), bump (bump (bump c7TP)))) ∧
    (fillValue intnZero floatZero [] 2 (.ptr .bool) .vNilPtr true 0 c7TP =
      some (.ok (.vPtr (.vBool true)), { bump (bump (bump c7TP)) with position := 9 })) ∧
    (fillValue intnZero floatZero [] 1 (.array 2 .bool) (.vArray []) true 0 c7TP =
      some (.ok (.vArray []), bump c7TP)) := by
  have h := c7_depth_semantics intnZero floatZero
  refine ⟨?_, ?_, ?_, ?_, ?_, ?_⟩
  · exact h.1 [] 0 [] .vOpaque 1 c7TPd1 (by decide) (by decide)
  · exact (h.2.1 [] 0 [] [] 0 c7TP (by decide) (Or.inl (by decide))).trans rfl
  · exact (h.2.2.1 [] 1 .bool .bool .vNilSlice (.vBool false) 0 c7TP
      (by decide) (by decide) rfl rfl rfl).trans rfl
  · exact (h.2.2.2.1 [] 1 .bool .bool .vNilMap (.vBool false) (.vBool false) 0 c7TP
      (by decide) (by decide) rfl rfl).trans rfl
  · exact (h.2.2.2.2.1 [] 1 .bool .vNilPtr (.vBool false) 0 c7TP
      (by decide) (by decide) rfl).trans rfl
  · exact (h.2.2.2.2.2 [] 0 2 .bool [] 0 c7TP (by decide)).trans rfl

/-!
C3 — cyclic type graphs.  The self-referential record is a struct
whose single exported field is a pointer back to the record itself.
With depth limit 0 the only brake is the pointer nil-bias decision:
when it can fire (bias 1, since `Float32` draws lie in `[0, 1)`) the
fill terminates; with bias 0 the decision never fires (no draw is below
0) and the fill diverges — `none` at every fuel.
-/

/-- The type environment of the self-referential record:
`type T struct { Next *T }`. -/
def selfRefEnv : List RType := [.strukt [(true, .ptr (.named 0))]]

/-- The first field of a struct, when settable, is filled and then the
rest of the fields are processed (the Go loop, one step). -/
theorem fillFields_cons_true (fu : Bool)
    (f : RType → RValue → TypeProvider → Option ((Except Err RValue) × TypeProvider))
    (ty : RType) (fs : List (Bool × RType)) (v : RValue) (vs : List RValue)
    (tp : TypeProvider) :
    fillFields fu f ((true, ty) :: fs) (v :: vs) tp =
      match f ty v tp with
      | none => none
      | some (.error e, tp1) => some (.error e, tp1)
      | some (.ok v1, tp1) =>
        match fillFields fu f fs vs tp1 with
        | none => none
        | some (.error e, tp2) => some (.error e, tp2)
        | some (.ok vs1, tp2) => some (.ok (v1 :: vs1), tp2) := rfl

/-- The zero value of the self-referential record, whenever it is
defined, is the struct holding one nil pointer. -/
theorem zeroVal_selfRef (f : Nat) (z : RValue)
    (h : zeroVal selfRefEnv f (.named 0) = some z) : z = .vStruct [.vNilPtr] := by
  match f with
  | 0 => exact Option.noConfusion h
  | 1 => exact Option.noConfusion h
  | 2 => exact Option.noConfusion h
  | k + 3 =>
    have he : zeroVal selfRefEnv (k + 3) (.named 0) = some (.vStruct [.vNilPtr]) := rfl
    rw [he] at h
    exact (Option.some.inj h).symm

/-- With skip bias 0, pointer nil-bias 0 and depth limit 0, filling the
self-referential record (or its pointer field) under the all-zero
`Float32` stream runs out of any amount of fuel: no draw ever falls
below the bias 0, so the nil decision never fires and the recursion
never stops. -/
theorem selfref_diverges (fuel : Nat) :
    ∀ (d : Nat) (tp : TypeProvider),
      tp.skipFieldBias = 0 → tp.ptrNilBias = 0 → tp.depthLimit = 0 →
      fillValue intnZero floatZero selfRefEnv fuel (.named 0)
        (.vStruct [.vNilPtr]) true d tp = none ∧
      fillValue intnZero floatZero selfRefEnv fuel (.ptr (.named 0))
        .vNilPtr true d tp = none := by
  induction fuel with
  | zero =>
    intro d tp h1 h2 h3
    exact ⟨rfl, rfl⟩
  | succ n ih =>
    intro d tp h1 h2 h3
    have hns : ¬ (floatZero tp.seed tp.randCount < tp.skipFieldBias) := by
      rw [h1]
      exact fun hc => absurd hc (lt_irrefl 0)
    constructor
    · rw [fillValue_noskip intnZero floatZero selfRefEnv n _ _ d tp hns]
      cases n with
      | zero => rfl
      | succ m =>
        have hr : resolveTy selfRefEnv (m + 1 + 1) (.named 0) =
            some (.strukt [(true, .ptr (.named 0))]) := rfl
        rw [hr]
        dsimp only [fillDispatch]
        split
        · rw [fillFields_cons_true]
          have hih := (ih (d + 1) (bump tp) h1 h2 h3).2
          rw [hih]
        · next hCn =>
          have hC2 : ¬ (tp.depthLimit = 0 ∨ (d : Int) < tp.depthLimit) := hCn
          exact absurd (Or.inl h3) hC2
    · rw [fillValue_noskip intnZero floatZero selfRefEnv n _ _ d tp hns]
      have hr : resolveTy selfRefEnv (n + 1) (.ptr (.named 0)) =
          some (.ptr (.named 0)) := rfl
      rw [hr]
      dsimp only [fillDispatch]
      split
      · next hC =>
        have hC2 : decide (floatZero tp.seed (tp.randCount + 1) < tp.ptrNilBias) = true := hC
        rw [h2] at hC2
        exact absurd (of_decide_eq_true hC2) (lt_irrefl 0)
      · cases hz : zeroVal selfRefEnv n (.named 0) with
        | none => rfl
        | some z =>
          dsimp only
          have hzv := zeroVal_selfRef n z hz
          subst hzv
          have hih := (ih d ((getRandomBool floatZero (bump tp) (bump tp).ptrNilBias).2)
            h1 h2 h3).1
          rw [hih]

/-- The provider for the C3 counterexample: eight zero bytes consumed
as the seed, default parameters except pointer nil-bias 0 (depth limit
is already 0, the unlimited setting, and skip bias is already 0). -/
def c3TP : TypeProvider := { zeroTP8 with ptrNilBias := 0 }

/-- A fill terminates when some amount of fuel suffices for the
recursion to finish (with either a value or a Go error); a run of the
Go code that returns corresponds to `some` at every large enough fuel,
a run that loops forever to `none` at every fuel. -/
def FillTerminates (intnF : RandIntn) (floatF : RandFloat) (env : List RType)
    (ty : RType) (cur : RValue) (canSet : Bool) (d : Nat) (tp : TypeProvider) : Prop :=
  ∃ (fuel : Nat) (r : Except Err RValue) (tp2 : TypeProvider),
    fillValue intnF floatF env fuel ty cur canSet d tp = some (r, tp2)

/-- C3 counterexample: with depth limit 0 and pointer nil-bias 0 — a
bias inside the claimed range `[0, 1]` — filling the self-referential
record does not terminate: the embedding returns `none` at every fuel,
because no `Float32` draw is ever below 0, so the nil decision on the
pointer link never breaks the cycle. -/
theorem c3_counterexample :
    ¬ FillTerminates intnZero floatZero selfRefEnv (.named 0)
      (.vStruct [.vNilPtr]) true 0 c3TP := by
  rintro ⟨fuel, r, tp2, h⟩
  rw [(selfref_diverges fuel 0 c3TP rfl rfl rfl).1] at h
  exact Option.noConfusion h

/-- Filling the pointer field of the self-referential record with
pointer nil-bias 1 always takes the nil branch: every `Float32` draw is
below 1. -/
theorem selfref_ptr_nil (intnF : RandIntn) (floatF : RandFloat) (fuel d : Nat)
    (tp : TypeProvider)
    (hF : ∀ k, 0 ≤ floatF tp.seed k ∧ floatF tp.seed k < 1)
    (hskip : tp.skipFieldBias = 0) (hptr : tp.ptrNilBias = 1) :
    fillValue intnF floatF selfRefEnv (fuel + 1) (.ptr (.named 0)) .vNilPtr true d tp =
      some (.ok .vNilPtr, bump (bump tp)) := by
  have hns : ¬ (floatF tp.seed tp.randCount < tp.skipFieldBias) := by
    rw [hskip]
    exact fun hc => absurd hc (not_lt.mpr (hF tp.randCount).1)
  rw [fillValue_noskip intnF floatF selfRefEnv fuel _ _ d tp hns]
  have hr : resolveTy selfRefEnv (fuel + 1) (.ptr (.named 0)) =
      some (.ptr (.named 0)) := rfl
  rw [hr]
  dsimp only [fillDispatch]
  split
  · rfl
  · next hC =>
    have hlt : floatF tp.seed (tp.randCount + 1) < tp.ptrNilBias := by
      rw [hptr]
      exact (hF (tp.randCount + 1)).2
    exact absurd (decide_eq_true hlt) hC

/-- C3 (amended): with depth limit 0, filling the self-referential
record terminates when the pointer nil-bias decision on the cycle's
pointer link is guaranteed to fire — in particular for pointer nil-bias
1, since `Float32` draws lie in `[0, 1)`: for every fuel reserve, the
fill returns the record with a nil pointer field after three generator
draws and no byte reads.  (For nil-bias 0 the decision never fires and
the fill diverges, so the claim's range `[0, 1]` is too wide.) -/
theorem c3_cycle_terminates (intnF : RandIntn) (floatF : RandFloat) (fuel : Nat)
    (tp : TypeProvider)
    (hF : ∀ k, 0 ≤ floatF tp.seed k ∧ floatF tp.seed k < 1)
    (hskip : tp.skipFieldBias = 0) (hptr : tp.ptrNilBias = 1) (hdep : tp.depthLimit = 0) :
    fillValue intnF floatF selfRefEnv (fuel + 1 + 1) (.named 0)
      (.vStruct [.vNilPtr]) true 0 tp =
      some (.ok (.vStruct [.vNilPtr]), bump (bump (bump tp))) := by
  have hns : ¬ (floatF tp.seed tp.randCount < tp.skipFieldBias) := by
    rw [hskip]
    exact fun hc => absurd hc (not_lt.mpr (hF tp.randCount).1)
  rw [fillValue_noskip intnF floatF selfRefEnv (fuel + 1) _ _ 0 tp hns]
  have hr : resolveTy selfRefEnv (fuel + 1 + 1) (.named 0) =
      some (.strukt [(true, .ptr (.named 0))]) := rfl
  rw [hr]
  dsimp only [fillDispatch]
  split
  · rw [fillFields_cons_true]
    rw [selfref_ptr_nil intnF floatF fuel (0 + 1) (bump tp) hF hskip hptr]
    exact rfl
  · next hCn =>
    have hC2 : ¬ (tp.depthLimit = 0 ∨ ((0 : Nat) : Int) < tp.depthLimit) := hCn
    exact absurd (Or.inl hdep) hC2

/-- Witness for C3 (amended) at a concrete input. -/
theorem c3_cycle_terminates_witness :
    fillValue intnZero floatZero selfRefEnv (2 + 1 + 1) (.named 0)
      (.vStruct [.vNilPtr]) true 0 { zeroTP8 with ptrNilBias := 1 } =
      some (.ok (.vStruct [.vNilPtr]),
        bump (bump (bump { zeroTP8 with ptrNilBias := 1 }))) :=
  c3_cycle_terminates intnZero floatZero 2 { zeroTP8 with ptrNilBias := 1 }
    (fun _ => ⟨le_rfl, show (0 : ℚ) < 1 by norm_num⟩) rfl rfl rfl

/-!
C1 — determinism: the embedding is a pure function of the buffer, the
configuration and the generator model, so two independently constructed
providers over the same buffer agree on every operation of any common
call sequence and on the final cursor.
-/

/-- C1: if two providers are independently constructed over the same
buffer (with the same deterministic standard-library generator
semantics), then running the same sequence of operations on both yields
identical results from every operation and identical final cursor
positions. -/
theorem c1_determinism (intnF : RandIntn) (floatF : RandFloat) (data : List Nat)
    (ops : List Op) (tp1 tp2 : TypeProvider)
    (h1 : NewTypeProvider data = .ok tp1) (h2 : NewTypeProvider data = .ok tp2) :
    (runOps intnF floatF ops tp1).1 = (runOps intnF floatF ops tp2).1 ∧
    (runOps intnF floatF ops tp1).2.position = (runOps intnF floatF ops tp2).2.position := by
  have he : tp1 = tp2 := by
    rw [h1] at h2
    exact Except.ok.inj h2
  subst he
  exact ⟨rfl, rfl⟩

/-- Witness for C1 at a concrete input. -/
theorem c1_determinism_witness :
    (runOps intnZero floatZero [Op.opGetByte] zeroTP8).1 =
      (runOps intnZero floatZero [Op.opGetByte] zeroTP8).1 ∧
    (runOps intnZero floatZero [Op.opGetByte] zeroTP8).2.position =
      (runOps intnZero floatZero [Op.opGetByte] zeroTP8).2.position :=
  c1_determinism intnZero floatZero (List.replicate 8 0) [Op.opGetByte]
    zeroTP8 zeroTP8 rfl rfl

end GoFuzzUtils
